import Mathlib

/-!
Verification development for the NexusCRM migration pipeline
(`backend/scripts/migration_csv_tool`, `backend/scripts/migration_tool`,
`backend/scripts/migration/import_salesforce.py`).

The Python sources are shallowly embedded below: pure helpers become Lean
functions on `String`/`List Char`, the streaming loops become folds over row
lists, and the HTTP client becomes a state machine driven by a transport
oracle.  Machine details that the claims do not touch (actual sockets, file
descriptors, thread scheduling) are abstracted as oracle parameters; every
such abstraction is noted on the definition it concerns.
-/

set_option maxRecDepth 20000

/-! ## Python string primitives

Python string operations used throughout the migration scripts.  `str.strip`
removes ASCII whitespace from both ends (the Unicode-only whitespace
characters never appear in the claims' inputs), `str.lower` lower-cases
(ASCII; the scripts' field names are ASCII), `in` is substring containment,
`str.endswith` is suffix test, and slicing `[:-3]` / `[:255]` is by code
points, as is `len`. -/

/-- ASCII whitespace stripped by Python `str.strip()`. -/
def isPySpace (c : Char) : Bool :=
  c = ' ' || c = '\t' || c = '\n' || c = '\r' || c = '\x0b' || c = '\x0c'

/-- Python `str.strip()`. -/
def pyStrip (s : String) : String :=
  ⟨((s.data.dropWhile isPySpace).reverse.dropWhile isPySpace).reverse⟩

/-- Python `str.lower()` (ASCII). -/
def pyLower (s : String) : String :=
  ⟨s.data.map Char.toLower⟩

/-- Python `len(s)` (code points). -/
def pyLen (s : String) : Nat :=
  s.data.length

/-- Python slice `s[:n]`. -/
def pyTake (s : String) (n : Nat) : String :=
  ⟨s.data.take n⟩

/-- Python slice `s[:-n]` for `n ≤ len s`. -/
def pyDropRight (s : String) (n : Nat) : String :=
  ⟨s.data.take (s.data.length - n)⟩

/-- `isPre p l` holds when `p` is a prefix of `l` (used for `re.match` style
anchored matching and for substring search). -/
def isPre : List Char → List Char → Bool
  | [], _ => true
  | _ :: _, [] => false
  | a :: as, b :: bs => a = b && isPre as bs

/-- `hasSub p l` holds when `p` occurs contiguously inside `l`
(Python `p in l`). -/
def hasSub (p : List Char) : List Char → Bool
  | [] => isPre p []
  | l@(_ :: t) => isPre p l || hasSub p t

/-- Python `needle in hay` on strings. -/
def strContains (hay needle : String) : Bool :=
  hasSub needle.data hay.data

/-- Python `s.endswith(suffix)`. -/
def strEnds (s suf : String) : Bool :=
  isPre suf.data.reverse s.data.reverse

/-! ## Pattern matchers

Executable embeddings of the regular expressions in
`migration_csv_tool/schema.py` / `migration_tool/schema.py` (they are
identical in the two files) and in `import_salesforce.py`.  `re.match`
anchors at the start only; a trailing `$` matches at the end of the string
or just before one final newline (Python semantics, see `pyDollarEnd`). -/

/-- Python `$` (non-MULTILINE): succeeds when the unmatched remainder is
empty or a single final newline. -/
def pyDollarEnd (l : List Char) : Bool :=
  l = [] || l = ['\n']

/-- Consume exactly `n` digits, returning the remainder. -/
def digitN : Nat → List Char → Option (List Char)
  | 0, l => some l
  | _ + 1, [] => none
  | n + 1, c :: rest => if c.isDigit then digitN n rest else none

/-- `schema.py` boolean vocabulary: `v.lower().strip() in bool_terms`. -/
def isBoolTerm (v : String) : Bool :=
  ["true", "false", "1", "0", "yes", "no", "y", "n", "t", "f"].contains
    (pyStrip (pyLower v))

/-- Prefix match for `^\d{4}X\d{2}X\d{2}` with a fixed separator `X`. -/
def dateSepLike (sep : Char) (l : List Char) : Bool :=
  match digitN 4 l with
  | some (c :: r1) =>
    if c = sep then
      match digitN 2 r1 with
      | some (c2 :: r2) => c2 = sep && (digitN 2 r2).isSome
      | _ => false
    else false
  | _ => false

/-- Consume `\d{1,2}/` (greedy with backtracking, as the regex engine does). -/
def dUpTo2Slash : List Char → Option (List Char)
  | c1 :: c2 :: c3 :: rest =>
    if c1.isDigit then
      if c2.isDigit && c3 = '/' then some rest
      else if c2 = '/' then some (c3 :: rest) else none
    else none
  | [c1, c2] => if c1.isDigit && c2 = '/' then some [] else none
  | _ => none

/-- Prefix match for `^\d{1,2}/\d{1,2}/\d{4}`. -/
def dateUSLike (l : List Char) : Bool :=
  match dUpTo2Slash l with
  | some r1 =>
    match dUpTo2Slash r1 with
    | some r2 => (digitN 4 r2).isSome
    | none => false
  | none => false

/-- `schema.py` date check: any of the four date-start patterns matches the
raw value. -/
def isDateMatch (v : String) : Bool :=
  dateSepLike '-' v.data || dateSepLike '/' v.data || dateSepLike '.' v.data
    || dateUSLike v.data

/-- Full match (with Python `$`) for `\d*\.?\d+([eE][-+]?\d+)?` after an
optional leading minus has been consumed.  The backtracking regex accepts
exactly the strings of shape `digits* ['.' digits+ | digits+] [exp]`. -/
def numTailLike (l : List Char) : Bool :=
  let a := l.takeWhile Char.isDigit
  let r := l.dropWhile Char.isDigit
  let core : Option (List Char) :=
    match r with
    | '.' :: r2 =>
      let b := r2.takeWhile Char.isDigit
      if b.isEmpty then none else some (r2.dropWhile Char.isDigit)
    | _ => if a.isEmpty then none else some r
  match core with
  | none => false
  | some rest =>
    match rest with
    | 'e' :: r3 => numExpTail r3
    | 'E' :: r3 => numExpTail r3
    | _ => pyDollarEnd rest
where
  /-- Tail of the exponent: `[-+]?\d+` followed by Python `$`. -/
  numExpTail (l : List Char) : Bool :=
    let l2 := match l with
      | '+' :: r => r
      | '-' :: r => r
      | _ => l
    let d := l2.takeWhile Char.isDigit
    !d.isEmpty && pyDollarEnd (l2.dropWhile Char.isDigit)

/-- `schema.py` number cleaning: `v.replace(',','').replace('$','')
.replace('£','').replace('€','').strip()`. -/
def numClean (v : String) : String :=
  pyStrip ⟨v.data.filter (fun c => !(c = ',' || c = '$' || c = '£' || c = '€'))⟩

/-- `re.sub(r'[.\-eE+]', '', v_clean)` — characters remaining after removing
dots, minus signs, `e`/`E` and plus signs (used for the 15-digit cap). -/
def numDigitCount (v : String) : Nat :=
  (v.data.filter (fun c => !(c = '.' || c = '-' || c = 'e' || c = 'E' || c = '+'))).length

/-- `schema.py` `is_number`: clean the value, reject ID-like strings longer
than 15 characters after decoration removal, then full-match the signed
decimal/scientific pattern. -/
def isNumberMatch (v : String) : Bool :=
  let vClean := numClean v
  if numDigitCount vClean > 15 then false
  else
    match vClean.data with
    | '-' :: rest => numTailLike rest
    | l => numTailLike l

/-- Character class `[a-zA-Z0-9._%+-]` (email local part). -/
def emailLocalChar (c : Char) : Bool :=
  c.isAlphanum || c = '.' || c = '_' || c = '%' || c = '+' || c = '-'

/-- Character class `[a-zA-Z0-9.-]` (email domain). -/
def emailDomChar (c : Char) : Bool :=
  c.isAlphanum || c = '.' || c = '-'

/-- Full match (with Python `$`) for
`^[a-zA-Z0-9._%+-]+@[a-zA-Z0-9.-]+\.[a-zA-Z]{2,}$`.  None of the character
classes accept `@`, `.`-splitting is resolved at the last dot, and only a
single trailing newline can be absorbed by `$`, so the backtracking match is
equivalent to this deterministic decomposition. -/
def isEmailMatch (v : String) : Bool :=
  let core := match v.data.reverse with
    | '\n' :: r => r.reverse
    | _ => v.data
  let lp := core.takeWhile (fun c => c ≠ '@')
  let rest := core.dropWhile (fun c => c ≠ '@')
  match rest with
  | '@' :: dom =>
    let revD := dom.reverse
    let revTld := revD.takeWhile (fun c => c ≠ '.')
    match revD.dropWhile (fun c => c ≠ '.') with
    | '.' :: revBody =>
      !lp.isEmpty && lp.all emailLocalChar
        && !revBody.isEmpty && revBody.all emailDomChar
        && revTld.length ≥ 2 && revTld.all Char.isAlpha
    | _ => false
  | _ => false

/-- Prefix match for `^https?://`. -/
def isUrlMatch (v : String) : Bool :=
  isPre "http://".data v.data || isPre "https://".data v.data

/-! ## Type inference

`SchemaManager.infer_type` from `migration_csv_tool/schema.py` (threshold
variant, 99% match rate) and from `migration_tool/schema.py` (strict
variant, every clean value must match), plus the inference path of
`import_salesforce.py::Importer.run` /
`Importer._infer_type_from_samples`. -/

/-- Result of type inference: the `(TypeName, ExtraParams)` pair returned by
`infer_type`, with the only structured extra (`referenceTo` of a Lookup)
carried on the constructor. -/
inductive InferResult where
  | longTextArea
  | boolean
  | dateTime
  | number
  | email
  | url
  | lookup (referenceTo : String)
deriving DecidableEq, Repr

/-- `clean_values = [v for v in sample_values if v and v.strip()]`. -/
def cleanValues (sampleValues : List String) : List String :=
  sampleValues.filter (fun v => v != "" && pyStrip v != "")

/-- Maximum Python length over the clean values (`max_len` loop in the
Lookup heuristic of `migration_csv_tool/schema.py`). -/
def maxPyLen (values : List String) : Nat :=
  values.foldl (fun m v => max m (pyLen v)) 0

/-- `migration_csv_tool/schema.py::SchemaManager.infer_type`.  The float
comparison `matches / total_count >= 0.99` is embedded as
`100 * matches ≥ 99 * total`; the two agree for every sample count below
`10^15`, far beyond any float rounding of the ratio (the double nearest to
`0.99` differs from it by less than `9e-18`). -/
def inferTypeCsv (sampleValues : List String) (fieldName : String) : InferResult :=
  let clean := cleanValues sampleValues
  let total := clean.length
  if total = 0 then .longTextArea
  else
    let lowerName := pyLower fieldName
    if strContains lowerName "phone" = true ∨ strContains lowerName "mobile" = true
        ∨ strContains lowerName "fax" = true then
      .longTextArea
    -- the source's check for an inner (non-final) `_id` falls through with `pass`
    else if 100 * clean.countP isBoolTerm ≥ 99 * total then .boolean
    else if 100 * clean.countP isDateMatch ≥ 99 * total then .dateTime
    else if 100 * clean.countP isNumberMatch ≥ 99 * total
        ∧ strEnds lowerName "_id" = false ∧ strContains lowerName "_id_" = false
        ∧ strEnds lowerName "_id_c" = false then .number
    else if 100 * clean.countP isEmailMatch ≥ 99 * total then .email
    else if 100 * clean.countP isUrlMatch ≥ 99 * total then .url
    else if strEnds lowerName "_id" = true then
      if maxPyLen clean ≤ 36 then .lookup (pyDropRight fieldName 3)
      else .longTextArea
    else .longTextArea

/-- The five boolean vocabularies of the strict variant
(`migration_tool/schema.py`). -/
def mtBoolSets : List (List String) :=
  [["true", "false"], ["1", "0"], ["yes", "no"], ["y", "n"], ["t", "f"]]

/-- Strict boolean test of `migration_tool/schema.py`: the set of distinct
lower-cased, stripped values must be a subset of one single vocabulary. -/
def mtIsBool (clean : List String) : Bool :=
  mtBoolSets.any (fun s => clean.all (fun v => s.contains (pyStrip (pyLower v))))

/-- `migration_tool/schema.py::SchemaManager.infer_type` (strict variant:
every clean value must match for a non-text family to win). -/
def inferTypeMT (sampleValues : List String) (fieldName : String) : InferResult :=
  let clean := cleanValues sampleValues
  if clean.isEmpty then .longTextArea
  else
    let lowerName := pyLower fieldName
    if strContains lowerName "phone" = true ∨ strContains lowerName "mobile" = true
        ∨ strContains lowerName "fax" = true then
      .longTextArea
    else if strContains lowerName "_id" = true ∧ strEnds lowerName "_id" = false then
      .longTextArea
    else if mtIsBool clean = true then .boolean
    else if clean.all isDateMatch = true then .dateTime
    else if clean.all isNumberMatch = true ∧ strEnds lowerName "_id" = false then .number
    else if clean.all isEmailMatch = true then .email
    else if clean.all isUrlMatch = true then .url
    else if strEnds lowerName "_id" = true then .lookup (pyDropRight fieldName 3)
    else .longTextArea

/-- The pattern families named by the specification (boolean / date /
number / email / url). -/
inductive PatternFamily where
  | boolean
  | date
  | number
  | email
  | url
deriving DecidableEq, Repr

/-- The matcher of each pattern family, as implemented in `schema.py`. -/
def familyMatcher : PatternFamily → String → Bool
  | .boolean => isBoolTerm
  | .date => isDateMatch
  | .number => isNumberMatch
  | .email => isEmailMatch
  | .url => isUrlMatch

/-- The field type each family infers. -/
def familyResult : PatternFamily → InferResult
  | .boolean => .boolean
  | .date => .dateTime
  | .number => .number
  | .email => .email
  | .url => .url

/-- Number of clean (non-blank) values matching a family. -/
def familyCount (f : PatternFamily) (sampleValues : List String) : Nat :=
  (cleanValues sampleValues).countP (familyMatcher f)

/-- A family reaches the 99% match rate over the non-blank values. -/
def familyAtThreshold (f : PatternFamily) (sampleValues : List String) : Prop :=
  100 * familyCount f sampleValues ≥ 99 * (cleanValues sampleValues).length

instance (f : PatternFamily) (vs : List String) : Decidable (familyAtThreshold f vs) := by
  unfold familyAtThreshold; infer_instance

/-- Specification-side inference, written from the claim/spec sentence: the
first family (in the order boolean, date, number, email, url) whose match
rate over the non-blank values reaches 99% wins; if no family reaches the
threshold — or no non-blank value exists — the result is Text.  This is the
comparison point for the refinement claim C2; `inferTypeCsv` is the
code-side definition. -/
def specThresholdInference (sampleValues : List String) : InferResult :=
  if (cleanValues sampleValues).length = 0 then .longTextArea
  else if familyAtThreshold .boolean sampleValues then .boolean
  else if familyAtThreshold .date sampleValues then .dateTime
  else if familyAtThreshold .number sampleValues then .number
  else if familyAtThreshold .email sampleValues then .email
  else if familyAtThreshold .url sampleValues then .url
  else .longTextArea

/-! ### Salesforce importer inference (`import_salesforce.py`) -/

/-- `TEXT_FIELD_INDICATORS` (lines 37-42): field names containing any of
these are forced to `LongTextArea`. -/
def TEXT_FIELD_INDICATORS : List String :=
  ["name", "title", "desc", "subject", "note", "comment", "street", "city",
   "state", "zip", "country", "phone", "email", "url", "link", "status",
   "type", "code", "address", "message", "body", "content", "text", "label"]

/-- Name hints that bias `_infer_type_from_samples` towards `Number`. -/
def sfNumberHints : List String :=
  ["amount", "count", "quantity", "total", "price", "rate",
   "percent", "probability", "duration", "age", "size", "score",
   "latitude", "longitude", "distance", "weight", "height"]

/-- `Importer._all_boolean`: every value (no blank-skip here) lower-cases to
`true` or `false`. -/
def sfAllBoolean (values : List String) : Bool :=
  values.all (fun v => ["true", "false"].contains (pyLower v))

/-- Full match (with Python `$`) for `^-?\d*\.?\d+$`. -/
def sfNumLike (v : String) : Bool :=
  let l := match v.data with
    | '-' :: r => r
    | l => l
  let a := l.takeWhile Char.isDigit
  let r := l.dropWhile Char.isDigit
  match r with
  | '.' :: r2 =>
    let b := r2.takeWhile Char.isDigit
    !b.isEmpty && pyDollarEnd (r2.dropWhile Char.isDigit)
  | _ => !a.isEmpty && pyDollarEnd r

/-- `Importer._all_numeric`: blanks are skipped; each other value must
match `^-?\d*\.?\d+$` and keep at most 15 characters once dots and minus
signs are removed. -/
def sfAllNumeric (values : List String) : Bool :=
  values.all (fun v =>
    v == "" || (sfNumLike v
      && (v.data.filter (fun c => !(c = '.' || c = '-'))).length ≤ 15))

/-- Consume `\d{2}:\d{2}:\d{2}` prefix (time part of the datetime regexes). -/
def timeLike (l : List Char) : Bool :=
  match digitN 2 l with
  | some (':' :: r1) =>
    match digitN 2 r1 with
    | some (':' :: r2) => (digitN 2 r2).isSome
    | _ => false
  | _ => false

/-- `Importer._all_datetime`'s three patterns: ISO with `T`, with a space,
or a bare `^\d{4}-\d{2}-\d{2}$`. -/
def sfDateTimeLike (v : String) : Bool :=
  match digitN 4 v.data with
  | some ('-' :: r1) =>
    match digitN 2 r1 with
    | some ('-' :: r2) =>
      match digitN 2 r2 with
      | some ('T' :: r3) => timeLike r3
      | some (' ' :: r3) => timeLike r3
      | some rest => pyDollarEnd rest
      | none => false
    | _ => false
  | _ => false

/-- `Importer._all_datetime` (blanks skipped). -/
def sfAllDatetime (values : List String) : Bool :=
  values.all (fun v => v == "" || sfDateTimeLike v)

/-- `Importer._infer_type_from_samples`. -/
def sfInferFromSamples (fieldName : String) (sampleValues : List String) : InferResult :=
  if sampleValues.isEmpty then .longTextArea
  else
    let fn := pyLower fieldName
    if sfNumberHints.any (fun h => strContains fn h) = true ∧ sfAllNumeric sampleValues = true then
      .number
    else if sfAllBoolean sampleValues = true then .boolean
    else if sfAllNumeric sampleValues = true ∧ strEnds fn "_id" = false
        ∧ strContains fn "phone" = false then .number
    else if sfAllDatetime sampleValues = true then .dateTime
    else .longTextArea

/-- The per-column inference performed by `Importer.run`
(`import_salesforce.py` lines 720-735): the indicator check comes first,
then — for a non-empty collected sample set — `_infer_type_from_samples`.
`fieldName` is the already lower-cased, stripped header;
`sampleValues` are the non-empty cell values collected for the column
(the `row[idx].strip()` collection loop is abstracted as this input). -/
def sfFieldType (fieldName : String) (sampleValues : List String) : InferResult :=
  if TEXT_FIELD_INDICATORS.any (fun ind => strContains fieldName ind) = true then
    .longTextArea
  else if sampleValues.isEmpty then .longTextArea
  else sfInferFromSamples fieldName sampleValues

/-! ## Value normalizers (`migration_tool/utils.py`)

`normalize_date`, `normalize_number` and `normalize_boolean`, shared by the
CSV importers (`migration_csv_tool/importer.py` imports the same trio from
its `utils`). -/

/-- Python values that can end up in a record: strings, the booleans
produced by `normalize_boolean`, and `None`. -/
inductive PyVal where
  | str (s : String)
  | bool (b : Bool)
  | pynone
deriving DecidableEq, Repr

/-- Python truthiness of a record value (`record.get(cand)` tests). -/
def pyTruthy : PyVal → Bool
  | .str s => s != ""
  | .bool b => b
  | .pynone => false

/-- Python `str()` of a record value. -/
def pyValStr : PyVal → String
  | .str s => s
  | .bool true => "True"
  | .bool false => "False"
  | .pynone => "None"

/-- Consume exactly `n` digits, also returning them (capture group). -/
def takeDigits : Nat → List Char → Option (List Char × List Char)
  | 0, l => some ([], l)
  | _ + 1, [] => none
  | n + 1, c :: rest =>
    if c.isDigit then
      match takeDigits n rest with
      | some (ds, r) => some (c :: ds, r)
      | none => none
    else none

/-- Consume `(\d{1,2})/` with its capture (greedy, with backtracking). -/
def dUpTo2SlashCap : List Char → Option (List Char × List Char)
  | c1 :: c2 :: c3 :: rest =>
    if c1.isDigit then
      if c2.isDigit && c3 = '/' then some ([c1, c2], rest)
      else if c2 = '/' then some ([c1], c3 :: rest) else none
    else none
  | [c1, c2] => if c1.isDigit && c2 = '/' then some ([c1], []) else none
  | _ => none

/-- Digits to `Nat` (Python `int` of a digit group). -/
def digitsToNat (ds : List Char) : Nat :=
  ds.foldl (fun n c => 10 * n + (c.toNat - 48)) 0

/-- Python `f"{p:02d}"` for the one-or-two-digit date components. -/
def pad2 (n : Nat) : String :=
  if n < 10 then "0" ++ toString n else toString n

/-- `utils.py::normalize_date`: strip, canonicalize `YYYY-MM-DD`-shaped
prefixes (dot, slash or dash separators) to dashes, resolve `D/D/YYYY` with
the `p1 > 12` day/month heuristic, otherwise return the stripped value. -/
def normalize_date (val : String) : String :=
  let v := pyStrip val
  match takeDigits 4 v.data with
  | some (y, s1 :: r1) =>
    if s1 = '.' || s1 = '/' || s1 = '-' then
      match takeDigits 2 r1 with
      | some (mo, s2 :: r2) =>
        if (s2 = '.' || s2 = '/' || s2 = '-') && (takeDigits 2 r2).isSome then
          match takeDigits 2 r2 with
          | some (d, _) => ⟨y⟩ ++ "-" ++ ⟨mo⟩ ++ "-" ++ ⟨d⟩
          | none => normalizeDateUS v
        else normalizeDateUS v
      | _ => normalizeDateUS v
    else normalizeDateUS v
  | _ => normalizeDateUS v
where
  /-- Second pattern of `normalize_date`: `^(\d{1,2})/(\d{1,2})/(\d{4})`. -/
  normalizeDateUS (v : String) : String :=
    match dUpTo2SlashCap v.data with
    | some (g1, r1) =>
      match dUpTo2SlashCap r1 with
      | some (g2, r2) =>
        match takeDigits 4 r2 with
        | some (g3, _) =>
          let p1 := digitsToNat g1
          let p2 := digitsToNat g2
          if p1 > 12 then ⟨g3⟩ ++ "-" ++ pad2 p2 ++ "-" ++ pad2 p1
          else ⟨g3⟩ ++ "-" ++ pad2 p1 ++ "-" ++ pad2 p2
        | none => v
      | none => v
    | none => v

/-- `utils.py::normalize_number`: strip currency decorations and
whitespace (empty input is returned unchanged). -/
def normalize_number (val : String) : String :=
  if val = "" then val else numClean val

/-- `utils.py::normalize_boolean`: tri-state true/false/unparsed. -/
def normalize_boolean (val : String) : PyVal :=
  if val = "" then .pynone
  else
    let v := pyStrip (pyLower val)
    if ["true", "1", "yes", "y", "t"].contains v then .bool true
    else if ["false", "0", "no", "n", "f"].contains v then .bool false
    else .str val

/-! ## CSV importer record building and batching
(`migration_csv_tool/importer.py::process_file`, identical streaming logic
in `migration_tool/importer.py::_process_csv`) -/

/-- A record under construction: a Python dict as an insertion-ordered
association list. -/
abbrev Record := List (String × PyVal)

/-- Python dict assignment `d[k] = v`: overwrite in place or append. -/
def dictInsert (r : Record) (k : String) (v : PyVal) : Record :=
  if r.any (fun p => p.1 = k) then
    r.map (fun p => if p.1 = k then (k, v) else p)
  else r ++ [(k, v)]

/-- Python `d.get(k)` / `k in d`. -/
def dictGetVal (r : Record) (k : String) : Option PyVal :=
  (r.find? (fun p => p.1 = k)).map (fun p => p.2)

/-- Lookup in the `typed_map` returned by `ensure_fields`. -/
def typedGet (typedMap : List (String × String)) (k : String) : Option String :=
  (typedMap.find? (fun p => p.1 = k)).map (fun p => p.2)

/-- Header normalization `header.lower().strip()`. -/
def normHeader (h : String) : String :=
  pyStrip (pyLower h)

/-- Keys of the `norm_headers` map: normalized, non-empty headers. -/
def normHeaderKeys (headers : List String) : List String :=
  (headers.map normHeader).filter (fun h => h != "")

/-- Per-cell normalization applied inside the streaming loop
(`if col in typed_map: ...`). -/
def applyNorm (typedMap : List (String × String)) (col : String) (v : String) : PyVal :=
  match typedGet typedMap col with
  | some t =>
    if t = "DateTime" then .str (normalize_date v)
    else if t = "Number" then .str (normalize_number v)
    else if t = "Boolean" then normalize_boolean v
    else .str v
  | none => .str v

/-- The `for i, val in enumerate(row)` loop: cells beyond the header count
and empty columns/values are skipped, everything else is written into the
record under the normalized column name. -/
def buildCells (headers : List String) (typedMap : List (String × String)) :
    Nat → List String → Record → Record
  | _, [], r => r
  | i, v :: vs, r =>
    let r' :=
      if i ≥ headers.length then r
      else
        let col := normHeader (headers.getD i "")
        if col = "" then r
        else if v = "" then r
        else dictInsert r col (applyNorm typedMap col v)
    buildCells headers typedMap (i + 1) vs r'

/-- Auto-name candidates probed when no `name` column exists. -/
def nameCandidates : List String := ["id", "title", "subject", "email"]

/-- Full record construction for one row: cell loop plus the auto-name
fallback (`Record {len(batch)+1}` uses the current batch length). -/
def buildRecord (headers : List String) (typedMap : List (String × String))
    (row : List String) (batchLen : Nat) : Record :=
  let r := buildCells headers typedMap 0 row []
  if dictGetVal r "name" = none ∧ (normHeaderKeys headers).contains "name" = false then
    match nameCandidates.find? (fun c => pyTruthy ((dictGetVal r c).getD .pynone)) with
    | some c => dictInsert r "name" (.str (pyTake (pyValStr ((dictGetVal r c).getD .pynone)) 255))
    | none => dictInsert r "name" (.str ("Record " ++ toString (batchLen + 1)))
  else r

/-- `meaningful_keys = set(record.keys()) - {'id', 'name'}` is non-empty. -/
def meaningful (r : Record) : Bool :=
  r.any (fun p => p.1 != "id" && p.1 != "name")

/-- Batch size computed by `process_file`:
`min(args.batch_size, int(50000 / num_columns))` for a non-empty header row
(`int(50000 / C)` is exact floor division for every realistic `C`, since
the float quotient is within one part in `10^11` of the rational one). -/
def computedBatchSize (cfgBatchSize : Nat) (numColumns : Nat) : Nat :=
  if numColumns > 0 then min cfgBatchSize (50000 / numColumns) else cfgBatchSize

/-- One iteration of the streaming loop: build the record, skip it if it
carries nothing beyond `id`/`name`, otherwise append it to the current
batch and flush the batch once it reaches the batch size.  State is
`(submitted batches, current batch)`; submission is modelled by appending
to the first component (the thread pool only affects completion order,
which the claims do not touch). -/
def csvStep (batchSize : Nat) (headers : List String) (typedMap : List (String × String))
    (acc : List (List Record) × List Record) (row : List String) :
    List (List Record) × List Record :=
  let record := buildRecord headers typedMap row acc.2.length
  if meaningful record then
    let b := acc.2 ++ [record]
    if b.length ≥ batchSize then (acc.1 ++ [b], []) else (acc.1, b)
  else acc

/-- The whole streaming phase of `process_file`: fold the rows, then flush
the final partial batch.  Returns every batch submitted to the bulk
endpoint, in submission order. -/
def processRows (cfgBatchSize : Nat) (headers : List String)
    (typedMap : List (String × String)) (rows : List (List String)) : List (List Record) :=
  let batchSize := computedBatchSize cfgBatchSize headers.length
  let st := rows.foldl (csvStep batchSize headers typedMap) ([], [])
  if st.2.isEmpty then st.1 else st.1 ++ [st.2]

/-! ## Distributed sampler (`migration_csv_tool/importer.py`, section
"Distributed Sampling for Inference")

The file is modelled as the list of its data rows (header excluded).  Byte
seeking (`f.seek(target_pos); f.readline()`) lands the reader on some row
boundary that depends on the byte layout; that landing position is
abstracted as an oracle `seekTo : chunk index → row index`.  Seeks happen
only for chunks `i > 0` on files above the 50000-byte threshold, exactly as
in the source; for small files the reader just keeps its position. -/

/-- Reader-plus-collected-samples state of the sampling loop. -/
structure SamplerSt where
  cursor : Nat
  samples : List (List String)
deriving Repr

/-- Inner `while rows_read_in_chunk < chunk_size` loop: read rows one at a
time, stopping at the chunk quota, at `limit` total samples, or at end of
file (`StopIteration`). -/
def readChunkRows (rows : List (List String)) (limit : Nat) :
    Nat → SamplerSt → SamplerSt
  | 0, st => st
  | quota + 1, st =>
    if st.cursor < rows.length then
      let st' : SamplerSt :=
        { cursor := st.cursor + 1, samples := st.samples ++ [rows.getD st.cursor []] }
      if st'.samples.length ≥ limit then st' else readChunkRows rows limit quota st'
    else st

/-- The `for i in range(NUM_CHUNKS)` loop (fuel counts remaining chunks,
`i` is the chunk index). -/
def runChunks (rows : List (List String)) (limit chunkSize totalBytes : Nat)
    (seekTo : Nat → Nat) : Nat → Nat → SamplerSt → SamplerSt
  | 0, _, st => st
  | fuel + 1, i, st =>
    let st1 := if i = 0 then st
      else if totalBytes > 50000 then { st with cursor := seekTo i } else st
    let st2 := readChunkRows rows limit chunkSize st1
    if st2.samples.length ≥ limit then st2
    else runChunks rows limit chunkSize totalBytes seekTo fuel (i + 1) st2

/-- The sampling phase of `process_file`: full scan when the configured
sample size is non-positive, otherwise 20 chunks of `max(1, limit // 20)`
rows each. -/
def sampleRows (rows : List (List String)) (totalBytes : Nat) (limit : Int)
    (seekTo : Nat → Nat) : List (List String) :=
  if limit ≤ 0 then rows
  else
    let lim := limit.toNat
    let chunkSize := max 1 (lim / 20)
    (runChunks rows lim chunkSize totalBytes seekTo 20 0 ⟨0, []⟩).samples

/-! ## Remote client (`migration_tool/client.py::NexusClient.request` and
`import_salesforce.py::NexusClient.request`)

The network is a transport oracle mapping the attempt number to its
outcome: either an exception raised anywhere inside the `try` block, or an
HTTP response with status and body.  JSON decoding of a successful body is
irrelevant to the claims and the body is returned as-is.  The recorded
trace counts attempts, connection discards (`del self._local.conn` /
`_close_connection`), and the backoff sleeps in order. -/

/-- Outcome of one transport attempt. -/
inductive NetOutcome where
  | exc (msg : String)
  | resp (status : Nat) (body : String)
deriving DecidableEq, Repr

/-- Result of `request`: the `(data, err)` pair collapsed to a sum. -/
inductive ReqResult where
  | ok (body : String)
  | err (msg : String)
deriving DecidableEq, Repr

/-- Observable trace of one `request` call. -/
structure ReqTrace where
  attempts : Nat
  discards : Nat
  sleeps : List Nat
deriving DecidableEq, Repr

/-- Error string `f"API Error {status}: {body}"`. -/
def apiError (status : Nat) (body : String) : String :=
  "API Error " ++ toString status ++ ": " ++ body

/-- `migration_tool/client.py::NexusClient.request`, one loop iteration per
call; `fuel` is the number of retries still allowed (`retries - attempt`),
`backoff` the next sleep in seconds (1, 2, 4, ... — exact powers of two,
so the float arithmetic is exact). -/
def requestMTGo (transport : Nat → NetOutcome) (attempt : Nat) :
    Nat → Nat → ReqTrace → ReqResult × ReqTrace
  | 0, _, tr =>
    -- last allowed attempt: `attempt < retries` is false, every branch returns
    let tr' := { tr with attempts := tr.attempts + 1 }
    match transport attempt with
    | .exc m => (.err m, tr')
    | .resp status body =>
      if status ≥ 500 ∨ status = 429 then
        -- falls through to the ≥400 return (both conditions imply ≥400)
        (.err (apiError status body), tr')
      else if status ≥ 400 then (.err (apiError status body), tr')
      else (.ok body, tr')
  | f + 1, backoff, tr =>
    let tr' := { tr with attempts := tr.attempts + 1 }
    match transport attempt with
    | .exc m =>
      requestMTGo transport (attempt + 1) f (backoff * 2)
        { tr' with discards := tr'.discards + 1, sleeps := tr'.sleeps ++ [backoff] }
    | .resp status body =>
      if status ≥ 500 ∨ status = 429 then
        requestMTGo transport (attempt + 1) f (backoff * 2)
          { tr' with discards := tr'.discards + 1, sleeps := tr'.sleeps ++ [backoff] }
      else if status ≥ 400 then (.err (apiError status body), tr')
      else (.ok body, tr')

/-- `migration_tool` client entry point: `retries = 3`, initial backoff 1. -/
def requestMT (transport : Nat → NetOutcome) : ReqResult × ReqTrace :=
  requestMTGo transport 0 3 1 ⟨0, 0, []⟩

/-- `import_salesforce.py::NexusClient.request`: retries only on 5xx (429 is
handled by the generic ≥400 return), and on an exception the connection is
closed even when no retry remains. -/
def requestSFGo (transport : Nat → NetOutcome) (attempt : Nat) :
    Nat → Nat → ReqTrace → ReqResult × ReqTrace
  | 0, _, tr =>
    let tr' := { tr with attempts := tr.attempts + 1 }
    match transport attempt with
    | .exc m =>
      -- `_close_connection` runs before the retry check, so the final
      -- failing exception also discards
      (.err m, { tr' with discards := tr'.discards + 1 })
    | .resp status body =>
      if status ≥ 500 then (.err (apiError status body), tr')
      else if status ≥ 400 then (.err (apiError status body), tr')
      else (.ok body, tr')
  | f + 1, backoff, tr =>
    let tr' := { tr with attempts := tr.attempts + 1 }
    match transport attempt with
    | .exc m =>
      requestSFGo transport (attempt + 1) f (backoff * 2)
        { tr' with discards := tr'.discards + 1, sleeps := tr'.sleeps ++ [backoff] }
    | .resp status body =>
      if status ≥ 500 then
        requestSFGo transport (attempt + 1) f (backoff * 2)
          { tr' with discards := tr'.discards + 1, sleeps := tr'.sleeps ++ [backoff] }
      else if status ≥ 400 then (.err (apiError status body), tr')
      else (.ok body, tr')

/-- Salesforce-importer client entry point: `retries = 3`, backoff 1. -/
def requestSF (transport : Nat → NetOutcome) : ReqResult × ReqTrace :=
  requestSFGo transport 0 3 1 ⟨0, 0, []⟩

/-- Retryable outcomes for the `migration_tool` client: connection errors,
5xx, and 429. -/
def retryableMT : NetOutcome → Bool
  | .exc _ => true
  | .resp status _ => decide (status ≥ 500) || decide (status = 429)

/-! ## Self-healing on bulk row errors
(`import_salesforce.py::Importer.process_batch` / `_handle_bulk_error`)

`Importer.corrected_fields` persists across batches of one run.  The
backend's answer to each `PATCH` field update is an oracle indexed by the
sequence number of the patch.  The trace records every issued patch. -/

/-- Regex word character `\w`. -/
def isWordChar (c : Char) : Bool :=
  c.isAlphanum || c = '_'

/-- Consume a literal string prefix. -/
def litPre (lit : String) (l : List Char) : Option (List Char) :=
  if isPre lit.data l then some (l.drop lit.data.length) else none

/-- Try the pattern `validation error on field '([^']+)': expected (\w+)`
anchored at the current position.  The greedy `[^']+` cannot cross the
closing quote, so the match is deterministic at a given position. -/
def matchValErrAt (l : List Char) : Option (String × String) :=
  match litPre "validation error on field '" l with
  | none => none
  | some r1 =>
    let f := r1.takeWhile (fun c => c ≠ '\'')
    if f.isEmpty then none
    else
      match litPre "': expected " (r1.dropWhile (fun c => c ≠ '\'')) with
      | none => none
      | some r2 =>
        let w := r2.takeWhile isWordChar
        if w.isEmpty then none else some (⟨f⟩, ⟨w⟩)

/-- `re.search`: try the pattern at every start position, left to right. -/
def searchValErr (l : List Char) : Option (String × String) :=
  match matchValErrAt l with
  | some r => some r
  | none =>
    match l with
    | [] => none
    | _ :: t => searchValErr t

/-- `_handle_bulk_error`'s error parsing: the `(field, expected type)`
captured by the type-mismatch signature, if present. -/
def parseValidationError (msg : String) : Option (String × String) :=
  searchValErr msg.data

/-- Healing state of one run: the `corrected_fields` set, the trace of all
issued `PATCH` field-type downgrades, and `stats.auto_corrections`. -/
structure HealSt where
  corrected : List String
  patches : List String
  corrections : Nat
deriving DecidableEq, Repr

/-- `Importer._handle_bulk_error`: on a type-mismatch signature for a field
not yet corrected, issue exactly one downgrade `PATCH` to `LongTextArea`;
when the backend accepts it (`patchOk` at the patch's sequence number),
record the field as corrected. -/
def handleBulkError (patchOk : Nat → Bool) (st : HealSt) (msg : String) : HealSt :=
  match parseValidationError msg with
  | none => st
  | some (badField, _) =>
    if st.corrected.contains badField then st
    else
      let st' := { st with patches := st.patches ++ [badField] }
      if patchOk (st'.patches.length - 1) then
        { st' with corrected := st'.corrected ++ [badField],
                   corrections := st'.corrections + 1 }
      else st'

/-- `process_batch` inspects only the first 10 per-row errors of a batch. -/
def processBatchErrors (patchOk : Nat → Bool) (st : HealSt) (errors : List String) : HealSt :=
  (errors.take 10).foldl (handleBulkError patchOk) st

/-- Healing across a whole run: fold the per-batch error lists in order. -/
def runHeal (patchOk : Nat → Bool) (batchErrors : List (List String)) : HealSt :=
  batchErrors.foldl (processBatchErrors patchOk) ⟨[], [], 0⟩

/-- API calls issued by `process_batch`. -/
inductive ApiCall where
  | bulkPost (records : Nat)
  | patchField (fld : String)
deriving DecidableEq, Repr

/-- Whether a call re-submits record data. -/
def isBulkPost : ApiCall → Bool
  | .bulkPost _ => true
  | .patchField _ => false

/-- The full call footprint of one `process_batch` invocation, given the
bulk response: the single bulk `POST` (with the batch's record count),
followed by the downgrade `PATCH`es triggered by the first 10 errors when
the response reports failures.  No other request is issued. -/
def processBatchCalls (patchOk : Nat → Bool) (st : HealSt) (recordCount : Nat)
    (failedCount : Nat) (errors : List String) : HealSt × List ApiCall :=
  let st' := if failedCount > 0 then processBatchErrors patchOk st errors else st
  (st', .bulkPost recordCount :: (st'.patches.drop st.patches.length).map .patchField)

/-! ## Salesforce importer streaming loop and checkpoints
(`import_salesforce.py::Importer.run`, lines 781-852, and
`CheckpointManager`) -/

/-- State of the `for row in reader` streaming loop of `Importer.run`:
`idx` is `current_row_index`, `batch` the rows accumulated since the last
submission, `submitted` every batch handed to the worker pool, and
`ckptWrites` the successive values written to the checkpoint file by
`ckpt.write(current_row_index)`. -/
structure SFRunState where
  idx : Nat
  batch : List (List String)
  submitted : List (List (List String))
  ckptWrites : List Nat
deriving DecidableEq, Repr

/-- One iteration of the loop: rows at index `≥ start_row` are batched
(batches flush at 50 rows); the index is then advanced and every multiple
of 5000 is written to the checkpoint file — unconditionally, whatever
`start_row` was. -/
def sfRunStep (startRow : Nat) (st : SFRunState) (row : List String) : SFRunState :=
  let st1 :=
    if st.idx ≥ startRow then
      let b := st.batch ++ [row]
      if b.length ≥ 50 then { st with batch := [], submitted := st.submitted ++ [b] }
      else { st with batch := b }
    else st
  let st2 := { st1 with idx := st1.idx + 1 }
  if st2.idx % 5000 = 0 then { st2 with ckptWrites := st2.ckptWrites ++ [st2.idx] }
  else st2

/-- The whole streaming phase of `Importer.run`, starting from the persisted
checkpoint `start_row = ckpt.read()`: fold the data rows, then submit the
final partial batch.  On normal completion the run subsequently calls
`ckpt.clear()`; `ckptWrites` is the sequence of values the checkpoint file
holds while the run is still in flight. -/
def sfRunStream (startRow : Nat) (rows : List (List String)) : SFRunState :=
  let st := rows.foldl (sfRunStep startRow) ⟨0, [], [], []⟩
  if st.batch.isEmpty then st
  else { st with batch := [], submitted := st.submitted ++ [st.batch] }

/-- The checkpoint values written while the reader index moves from `a` to
`a + k`: every multiple of 5000 in the half-open interval `(a, a + k]`. -/
def writesBetween (a : Nat) : Nat → List Nat
  | 0 => []
  | k + 1 => (if (a + 1) % 5000 = 0 then [a + 1] else []) ++ writesBetween (a + 1) k

/-- Retryable outcomes for the salesforce-importer client: connection
errors and 5xx only. -/
def retryableSF : NetOutcome → Bool
  | .exc _ => true
  | .resp status _ => decide (status ≥ 500)

/-- The parsed field of a bulk error message, if any. -/
def parsedField (m : String) : Option String :=
  (parseValidationError m).map Prod.fst

/-- The value of the right-most cell that writes `name` into the record,
scanning cells `vs` that start at header index `i` (mirrors the skip
conditions of the cell loop: in-range header, non-empty normalized column
name equal to `name`, non-empty cell). -/
def lastWrite (headers : List String) (name : String) : Nat → List String → Option String
  | _, [] => none
  | i, v :: vs =>
    match lastWrite headers name (i + 1) vs with
    | some w => some w
    | none =>
      if i < headers.length ∧ name ≠ "" ∧ normHeader (headers.getD i "") = name ∧ v ≠ ""
      then some v else none

/-! ## Theorems -/
/-! Basic facts connecting the executable substring predicates. -/

theorem isPre_iff_exists (p : List Char) : ∀ l, isPre p l = true ↔ ∃ r, l = p ++ r := by
  induction p with
  | nil => intro l; simp [isPre]
  | cons a as ih =>
    intro l
    cases l with
    | nil => simp [isPre]
    | cons b bs =>
      simp only [isPre, Bool.and_eq_true, decide_eq_true_eq, ih bs, List.cons_append,
        List.cons.injEq]
      constructor
      · rintro ⟨rfl, r, rfl⟩; exact ⟨r, rfl, rfl⟩
      · rintro ⟨r, rfl, rfl⟩; exact ⟨rfl, r, rfl⟩

theorem hasSub_iff_exists (p : List Char) : ∀ l, hasSub p l = true ↔ ∃ u v, l = u ++ p ++ v := by
  intro l
  induction l with
  | nil =>
    simp only [hasSub, isPre_iff_exists]
    constructor
    · rintro ⟨r, h⟩; exact ⟨[], r, by simpa using h⟩
    · rintro ⟨u, v, h⟩
      refine ⟨v, ?_⟩
      rcases List.append_eq_nil.mp h.symm with ⟨h1, h2⟩
      rcases List.append_eq_nil.mp h1 with ⟨rfl, rfl⟩
      simpa using h.symm ▸ rfl
  | cons b bs ih =>
    simp only [hasSub, Bool.or_eq_true, isPre_iff_exists, ih]
    constructor
    · rintro (⟨r, h⟩ | ⟨u, v, h⟩)
      · exact ⟨[], r, by simpa using h⟩
      · exact ⟨b :: u, v, by simp [h]⟩
    · rintro ⟨u, v, h⟩
      cases u with
      | nil => exact Or.inl ⟨v, by simpa using h⟩
      | cons x xs =>
        right
        refine ⟨xs, v, ?_⟩
        have h2 : b :: bs = x :: (xs ++ p ++ v) := by simpa using h
        exact (List.cons.injEq .. ▸ h2 : _ ∧ _).2

theorem strEnds_eq_true_iff (s suf : String) :
    strEnds s suf = true ↔ ∃ u, s.data = u ++ suf.data := by
  unfold strEnds
  rw [isPre_iff_exists]
  constructor
  · rintro ⟨r, h⟩
    refine ⟨r.reverse, ?_⟩
    have := congrArg List.reverse h
    simpa using this
  · rintro ⟨u, h⟩
    exact ⟨u.reverse, by simp [h]⟩

/-- A suffix of a string is in particular a substring: if `pat` is not
contained in `s`, then `s` does not end with `pat` either. -/
theorem strEnds_eq_false_of_not_contains {s pat : String}
    (h : strContains s pat = false) : strEnds s pat = false := by
  by_contra hne
  have hends : strEnds s pat = true := by
    cases he : strEnds s pat
    · exact absurd he hne
    · rfl
  rcases (strEnds_eq_true_iff s pat).mp hends with ⟨u, hu⟩
  have : strContains s pat = true := by
    unfold strContains
    exact (hasSub_iff_exists _ _).mpr ⟨u, [], by simp [hu]⟩
  rw [this] at h
  exact absurd h (by simp)

/-- Substring containment is transitive along containment of the patterns:
if `q` occurs inside `p` and `p` is not contained in `s`, then `q`-extensions
of `p` are not contained either.  Stated in the contrapositive form used
below: containment of a longer pattern implies containment of its infix. -/
theorem strContains_of_contains_of_hasSub {s p q : String}
    (hq : hasSub q.data p.data = true) (hp : strContains s p = true) :
    strContains s q = true := by
  unfold strContains at hp ⊢
  rcases (hasSub_iff_exists _ _).mp hp with ⟨u, v, huv⟩
  rcases (hasSub_iff_exists _ _).mp hq with ⟨a, b, hab⟩
  exact (hasSub_iff_exists _ _).mpr ⟨u ++ a, b ++ v, by simp [huv, hab]⟩

theorem strContains_eq_false_of_not_contains_inner {s p q : String}
    (hq : hasSub q.data p.data = true) (hs : strContains s q = false) :
    strContains s p = false := by
  cases hp : strContains s p
  · rfl
  · rw [strContains_of_contains_of_hasSub hq hp] at hs
    exact absurd hs (by simp)

example : isDateMatch "2024-01-15" = true := by decide
example : isDateMatch "1/2/2024 10:00" = true := by decide
example : isDateMatch "12-01-2024" = false := by decide
example : isNumberMatch "$1,000.50" = true := by decide
example : isNumberMatch "-3.5e-2" = true := by decide
example : isNumberMatch "1234567890123456" = false := by decide
example : isNumberMatch "12.3.4" = false := by decide
example : isNumberMatch ".5" = true := by decide
example : isNumberMatch "123." = false := by decide
example : isEmailMatch "john.doe+x@mail.example.com" = true := by decide
example : isEmailMatch "a@b.c" = false := by decide
example : isEmailMatch "a@.co" = false := by decide
example : isEmailMatch "a@b.co" = true := by decide
example : isUrlMatch "https://x.y/z" = true := by decide
example : isBoolTerm " True " = true := by decide

example : inferTypeCsv ["true", "False", "1"] "active_flag" = .boolean := by decide
example : inferTypeCsv ["2024-01-15", "2024/02/01"] "closed" = .dateTime := by decide
example : inferTypeCsv ["$1,000.50", "2300"] "amount" = .number := by decide
example : inferTypeCsv ["0035000000abcde12", "0035000000abcde13"] "account_id"
    = .lookup "account" := by decide
example : inferTypeCsv [String.mk (List.replicate 50 'a')] "external_id_c"
    = .longTextArea := by decide
example : inferTypeCsv ["123", "456"] "phone" = .longTextArea := by decide
example : inferTypeMT ["true", "false"] "is_active" = .boolean := by decide
example : inferTypeMT ["true", "1"] "is_active" = .longTextArea := by decide
example : inferTypeMT ["1001", "1002"] "owner_id" = .lookup "owner" := by decide
example : inferTypeMT ["12345"] "zoom_info_id_c" = .longTextArea := by decide
example : inferTypeMT ["ABC"] "zoom_info_idx" = .longTextArea := by decide
example : sfFieldType "mobile" ["5551234"] = .number := by decide
example : sfFieldType "phone2" ["5551234"] = .longTextArea := by decide
example : sfFieldType "amount" ["1500", "2300.50"] = .number := by decide
example : sfFieldType "revenue" ["1500", "2300.50"] = .number := by decide

example : normalize_date "2024.01/15 extra" = "2024-01-15" := by decide
example : normalize_date " 1/2/2024" = "2024-01-02" := by decide
example : normalize_date "15/2/2024" = "2024-02-15" := by decide
example : normalize_date "N/A" = "N/A" := by decide
example : normalize_number "$1,000.50 " = "1000.50" := by decide
example : normalize_boolean " Y " = .bool true := by decide
example : normalize_boolean "maybe" = .str "maybe" := by decide

example : buildRecord ["Name", "Amount"] [("amount", "Number")] ["Acme", "$1,500"] 0
    = [("name", .str "Acme"), ("amount", .str "1500")] := by decide
example : buildRecord ["a", "b"] [] ["x"] 0
    = [("a", .str "x"), ("name", .str "Record 1")] := by decide
example : buildRecord ["id", "ID"] [] ["1", "2"] 4
    = [("id", .str "2"), ("name", .str "2")] := by decide
example : meaningful [("id", .str "2"), ("name", .str "2")] = false := by decide
example : processRows 0 ["a"] [] [["x"]]
    = [[[("a", .str "x"), ("name", .str "Record 1")]]] := by decide
example : processRows 1000 ["id", "ID"] [] [["1", "2"]] = [] := by decide

example : sampleRows [["a"], ["b"], ["c"]] 10 0 (fun _ => 0) = [["a"], ["b"], ["c"]] := by decide
example : (sampleRows [["a"], ["b"], ["c"]] 10 2 (fun _ => 0)).length = 2 := by decide
example : sampleRows [] 0 5 (fun _ => 0) = [] := by decide
example : sampleRows [["a"], ["b"], ["c"]] 10 100 (fun _ => 0) = [["a"], ["b"], ["c"]] := by decide

example : requestMT (fun _ => .resp 404 "nope")
    = (.err "API Error 404: nope", ⟨1, 0, []⟩) := by decide
example : requestMT (fun _ => .resp 429 "slow")
    = (.err "API Error 429: slow", ⟨4, 3, [1, 2, 4]⟩) := by decide
example : requestMT (fun n => if n < 2 then .exc "reset" else .resp 200 "okay")
    = (.ok "okay", ⟨3, 2, [1, 2]⟩) := by decide
example : requestSF (fun _ => .resp 429 "slow")
    = (.err "API Error 429: slow", ⟨1, 0, []⟩) := by decide
example : requestSF (fun _ => .resp 503 "down")
    = (.err "API Error 503: down", ⟨4, 3, [1, 2, 4]⟩) := by decide
example : requestSF (fun _ => .exc "boom")
    = (.err "boom", ⟨4, 4, [1, 2, 4]⟩) := by decide

example : parseValidationError
    "record 5: validation error on field 'amount': expected number, got text"
    = some ("amount", "number") := by decide
example : parseValidationError "record 5: something else entirely" = none := by decide
example : (runHeal (fun _ => true)
    [["validation error on field 'amount': expected number",
      "validation error on field 'amount': expected number"],
     ["validation error on field 'amount': expected number"]]).patches
    = ["amount"] := by decide
example : (runHeal (fun _ => false)
    [["validation error on field 'amount': expected number",
      "validation error on field 'amount': expected number"]]).patches
    = ["amount", "amount"] := by decide

example : (sfRunStream 0 (List.replicate 120 [])).submitted.length = 3 := by decide
example : (sfRunStream 100 (List.replicate 120 [])).submitted.length = 1 := by decide

theorem mem_writesBetween (m : Nat) :
    ∀ (k a : Nat), m ∈ writesBetween a k ↔ (a < m ∧ m ≤ a + k ∧ m % 5000 = 0) := by
  intro k
  induction k with
  | zero => intro a; simp [writesBetween]; omega
  | succ n ih =>
    intro a
    simp only [writesBetween, List.mem_append, ih]
    split
    · simp only [List.mem_singleton]
      omega
    · simp only [List.not_mem_nil, false_or]
      omega

/-- Closed form of the streaming fold when the whole input lies below the
start row: nothing is batched, the index advances by the row count, and the
checkpoint file receives every multiple of 5000 passed by the reader —
regardless of `startRow`. -/
theorem sfRunFold_below_start (startRow : Nat) :
    ∀ (rows : List (List String)) (st : SFRunState),
      st.idx + rows.length ≤ startRow →
      rows.foldl (sfRunStep startRow) st
        = ⟨st.idx + rows.length, st.batch, st.submitted,
           st.ckptWrites ++ writesBetween st.idx rows.length⟩ := by
  intro rows
  induction rows with
  | nil =>
    intro st _
    cases st
    simp [writesBetween]
  | cons r rs ih =>
    intro st h
    have hlt : ¬ st.idx ≥ startRow := by
      simp only [List.length_cons] at h
      omega
    have hstep : sfRunStep startRow st r
        = ⟨st.idx + 1, st.batch, st.submitted,
           st.ckptWrites ++ (if (st.idx + 1) % 5000 = 0 then [st.idx + 1] else [])⟩ := by
      unfold sfRunStep
      rw [if_neg hlt]
      split <;> simp_all
    rw [List.foldl_cons, hstep, ih]
    · simp only [List.length_cons, writesBetween, List.append_assoc]
      have harith : st.idx + 1 + rs.length = st.idx + (rs.length + 1) := by omega
      rw [harith]
    · simp only [List.length_cons] at h
      simp only [List.length_cons]
      omega

/-- C1: the claim asserts that a run starting from persisted checkpoint
`k` leaves a checkpoint value `≥ k` whenever the file survives the run, and
never batches a row below `k`.  The second half holds, but the periodic
write `ckpt.write(current_row_index)` fires at every multiple of 5000 of
the absolute reader index without comparing against `start_row`: resuming
from `k = 10000` over 5000 data rows, the run batches nothing, yet writes
the value 5000 — strictly below `k` — into the checkpoint file, and every
value it writes before clearing stays below `k`.  A run that dies after
that write (the crash scenario checkpoints exist for) leaves the
checkpoint regressed from 10000 to 5000. -/
theorem c1_checkpoint_write_below_start :
    5000 ∈ (sfRunStream 10000 (List.replicate 5000 ([] : List String))).ckptWrites
      ∧ ((sfRunStream 10000 (List.replicate 5000 ([] : List String))).ckptWrites.all
          (fun w => decide (w < 10000))) = true
      ∧ (sfRunStream 10000 (List.replicate 5000 ([] : List String))).submitted = [] := by
  have hlen : (List.replicate 5000 ([] : List String)).length = 5000 :=
    List.length_replicate 5000 ([] : List String)
  have hfold := sfRunFold_below_start 10000 (List.replicate 5000 ([] : List String))
    ⟨0, [], [], []⟩ (by rw [hlen]; show (0 : Nat) + 5000 ≤ 10000; omega)
  rw [hlen] at hfold
  rw [Nat.zero_add] at hfold
  have hstream : sfRunStream 10000 (List.replicate 5000 ([] : List String))
      = ⟨5000, [], [], writesBetween 0 5000⟩ := by
    simp only [sfRunStream]
    rw [hfold]
    simp
  rw [hstream]
  refine ⟨?_, ?_, rfl⟩
  · exact (mem_writesBetween 5000 5000 0).mpr ⟨by omega, by omega, by omega⟩
  · rw [List.all_eq_true]
    intro w hw
    have hm := (mem_writesBetween w 5000 0).mp hw
    simp only [decide_eq_true_eq]
    omega

/-- Let-free restatement of `inferTypeCsv` (definitional). -/
theorem inferTypeCsv_def (vs : List String) (name : String) :
    inferTypeCsv vs name =
      (if (cleanValues vs).length = 0 then .longTextArea
       else if strContains (pyLower name) "phone" = true
           ∨ strContains (pyLower name) "mobile" = true
           ∨ strContains (pyLower name) "fax" = true then .longTextArea
       else if 100 * (cleanValues vs).countP isBoolTerm ≥ 99 * (cleanValues vs).length then
         .boolean
       else if 100 * (cleanValues vs).countP isDateMatch ≥ 99 * (cleanValues vs).length then
         .dateTime
       else if 100 * (cleanValues vs).countP isNumberMatch ≥ 99 * (cleanValues vs).length
           ∧ strEnds (pyLower name) "_id" = false
           ∧ strContains (pyLower name) "_id_" = false
           ∧ strEnds (pyLower name) "_id_c" = false then .number
       else if 100 * (cleanValues vs).countP isEmailMatch ≥ 99 * (cleanValues vs).length then
         .email
       else if 100 * (cleanValues vs).countP isUrlMatch ≥ 99 * (cleanValues vs).length then
         .url
       else if strEnds (pyLower name) "_id" = true then
         if maxPyLen (cleanValues vs) ≤ 36 then .lookup (pyDropRight name 3)
         else .longTextArea
       else .longTextArea) := rfl

/-- C2 (amended): on the threshold-based inferencer of `migration_csv_tool`,
for every column name free of the name heuristics (no phone/mobile/fax token
and no `_id` occurrence in the lower-cased name), `infer_type` returns
exactly what the claim's threshold rule dictates: the first pattern family
(in the order boolean, date, number, email, url) whose match rate over the
non-blank values reaches 99% — and Text when no family reaches the
threshold or no non-blank value exists. -/
theorem c2_threshold_inference_refinement (vs : List String) (name : String)
    (hphone : strContains (pyLower name) "phone" = false)
    (hmobile : strContains (pyLower name) "mobile" = false)
    (hfax : strContains (pyLower name) "fax" = false)
    (hid : strContains (pyLower name) "_id" = false) :
    inferTypeCsv vs name = specThresholdInference vs := by
  have hend : strEnds (pyLower name) "_id" = false := strEnds_eq_false_of_not_contains hid
  have hmid : strContains (pyLower name) "_id_" = false :=
    strContains_eq_false_of_not_contains_inner (by decide) hid
  have hendc : strEnds (pyLower name) "_id_c" = false := by
    apply strEnds_eq_false_of_not_contains
    exact strContains_eq_false_of_not_contains_inner (by decide) hid
  rw [inferTypeCsv_def]
  unfold specThresholdInference familyAtThreshold familyCount
  simp only [hphone, hmobile, hfax, hend, hmid, hendc, familyMatcher, Bool.false_eq_true,
    false_or, or_self, if_false, and_true, eq_self_iff_true, ge_iff_le]

/-- C2 witness: the refinement applied at a clean numeric column. -/
theorem c2_threshold_inference_refinement_witness :
    strContains (pyLower "amount") "phone" = false
      ∧ inferTypeCsv ["123", "456", "x"] "amount" = specThresholdInference ["123", "456", "x"] :=
  ⟨by decide, c2_threshold_inference_refinement ["123", "456", "x"] "amount"
    (by decide) (by decide) (by decide) (by decide)⟩

/-- C2 counterexample: a column named `phone` whose every sample matches the
boolean family (match rate 100% ≥ 99%) is still inferred as Text, because
the name heuristic precedes all data checks — the claim's "for every column
name" quantification is false. -/
theorem c2_counterexample_phone_boolean :
    familyAtThreshold .boolean ["true", "true"]
      ∧ (cleanValues ["true", "true"]).length ≠ 0
      ∧ inferTypeCsv ["true", "true"] "phone" = .longTextArea
      ∧ familyResult .boolean ≠ .longTextArea := by
  refine ⟨by decide, by decide, by decide, by decide⟩

/-- Let-free restatement of `inferTypeMT` (definitional). -/
theorem inferTypeMT_def (vs : List String) (name : String) :
    inferTypeMT vs name =
      (if (cleanValues vs).isEmpty then .longTextArea
       else if strContains (pyLower name) "phone" = true
           ∨ strContains (pyLower name) "mobile" = true
           ∨ strContains (pyLower name) "fax" = true then .longTextArea
       else if strContains (pyLower name) "_id" = true
           ∧ strEnds (pyLower name) "_id" = false then .longTextArea
       else if mtIsBool (cleanValues vs) = true then .boolean
       else if (cleanValues vs).all isDateMatch = true then .dateTime
       else if (cleanValues vs).all isNumberMatch = true
           ∧ strEnds (pyLower name) "_id" = false then .number
       else if (cleanValues vs).all isEmailMatch = true then .email
       else if (cleanValues vs).all isUrlMatch = true then .url
       else if strEnds (pyLower name) "_id" = true then .lookup (pyDropRight name 3)
       else .longTextArea) := rfl

/-- C3 (amended): the 36-character bound exists only in the
`migration_csv_tool` variant, and the Lookup heuristic fires only after the
name heuristics and every data family have failed.  Part one: in
`migration_csv_tool/schema.py`, for a name ending in `_id` (without
phone/mobile/fax tokens), with a non-empty clean sample set on which no
family reaches the 99% threshold (Number is suppressed by the `_id` suffix
itself), `infer_type` returns `Lookup` of the name minus `_id` when every
clean value has length ≤ 36, and Text when some value is longer.  Part two:
in `migration_tool/schema.py` the same situation yields `Lookup`
unconditionally — there is no length check at all. -/
theorem c3_id_lookup_heuristic :
    (∀ (vs : List String) (name : String),
      strEnds (pyLower name) "_id" = true →
      strContains (pyLower name) "phone" = false →
      strContains (pyLower name) "mobile" = false →
      strContains (pyLower name) "fax" = false →
      (cleanValues vs).length ≠ 0 →
      ¬ (100 * (cleanValues vs).countP isBoolTerm ≥ 99 * (cleanValues vs).length) →
      ¬ (100 * (cleanValues vs).countP isDateMatch ≥ 99 * (cleanValues vs).length) →
      ¬ (100 * (cleanValues vs).countP isEmailMatch ≥ 99 * (cleanValues vs).length) →
      ¬ (100 * (cleanValues vs).countP isUrlMatch ≥ 99 * (cleanValues vs).length) →
      inferTypeCsv vs name
        = (if maxPyLen (cleanValues vs) ≤ 36 then .lookup (pyDropRight name 3)
           else .longTextArea))
    ∧ (∀ (vs : List String) (name : String),
      strEnds (pyLower name) "_id" = true →
      strContains (pyLower name) "phone" = false →
      strContains (pyLower name) "mobile" = false →
      strContains (pyLower name) "fax" = false →
      (cleanValues vs).isEmpty = false →
      mtIsBool (cleanValues vs) = false →
      (cleanValues vs).all isDateMatch = false →
      (cleanValues vs).all isEmailMatch = false →
      (cleanValues vs).all isUrlMatch = false →
      inferTypeMT vs name = .lookup (pyDropRight name 3)) := by
  constructor
  · intro vs name hend hphone hmobile hfax hc hb hd he hu
    rw [inferTypeCsv_def]
    rw [if_neg hc]
    rw [if_neg (by simp [hphone, hmobile, hfax])]
    rw [if_neg hb]
    rw [if_neg hd]
    rw [if_neg (by rintro ⟨-, h2, -⟩; rw [hend] at h2; exact absurd h2 (by simp))]
    rw [if_neg he]
    rw [if_neg hu]
    rw [if_pos hend]
  · intro vs name hend hphone hmobile hfax hc hb hd he hu
    rw [inferTypeMT_def]
    rw [if_neg (by rw [hc]; exact Bool.false_ne_true)]
    rw [if_neg (by simp [hphone, hmobile, hfax])]
    rw [if_neg (by rintro ⟨-, h2⟩; rw [hend] at h2; exact absurd h2 (by simp))]
    rw [if_neg (by rw [hb]; exact Bool.false_ne_true)]
    rw [if_neg (by rw [hd]; exact Bool.false_ne_true)]
    rw [if_neg (by rintro ⟨h1, h2⟩; rw [hend] at h2; exact absurd h2 (by simp))]
    rw [if_neg (by rw [he]; exact Bool.false_ne_true)]
    rw [if_neg (by rw [hu]; exact Bool.false_ne_true)]
    rw [if_pos hend]

/-- C3 witness: a standard 13-character id column becomes a Lookup in the
csv tool, and a 50-character id column still becomes a Lookup in the
migration tool (no length bound there). -/
theorem c3_id_lookup_heuristic_witness :
    inferTypeCsv ["0035000000abc"] "account_id" = .lookup "account"
      ∧ inferTypeMT [String.mk (List.replicate 50 'x')] "owner_id" = .lookup "owner" := by
  constructor
  · have h := c3_id_lookup_heuristic.1 ["0035000000abc"] "account_id"
      (by decide) (by decide) (by decide) (by decide) (by decide)
      (by decide) (by decide) (by decide) (by decide)
    rw [h]
    decide
  · exact c3_id_lookup_heuristic.2 [String.mk (List.replicate 50 'x')] "owner_id"
      (by decide) (by decide) (by decide) (by decide) (by decide)
      (by decide) (by decide) (by decide) (by decide)

/-- C3 counterexample: `account_id` with a single date-shaped sample of
length 10 ≤ 36 is inferred as DateTime, not as the Lookup the claim
demands — the date family check precedes the `_id` heuristic. -/
theorem c3_counterexample_date_id :
    strEnds (pyLower "account_id") "_id" = true
      ∧ maxPyLen (cleanValues ["2024-01-15"]) ≤ 36
      ∧ inferTypeCsv ["2024-01-15"] "account_id" = .dateTime
      ∧ InferResult.dateTime ≠ .lookup "account" := by
  refine ⟨by decide, by decide, by decide, by decide⟩

/-- C4 (amended): the phone/mobile/fax name heuristic forces Text in both
`SchemaManager.infer_type` implementations, for every sample set; in the
`import_salesforce.py` pipeline, however, only the `phone` token is in
`TEXT_FIELD_INDICATORS` and in the inline Number guard, so only
phone-containing names are guaranteed Text there. -/
theorem c4_phone_tokens_force_text :
    (∀ (vs : List String) (name : String),
      strContains (pyLower name) "phone" = true ∨ strContains (pyLower name) "mobile" = true
        ∨ strContains (pyLower name) "fax" = true →
      inferTypeCsv vs name = .longTextArea ∧ inferTypeMT vs name = .longTextArea)
    ∧ (∀ (name : String) (vs : List String),
      strContains name "phone" = true → sfFieldType name vs = .longTextArea) := by
  constructor
  · intro vs name h
    constructor
    · rw [inferTypeCsv_def]
      by_cases hc : (cleanValues vs).length = 0
      · rw [if_pos hc]
      · rw [if_neg hc, if_pos h]
    · rw [inferTypeMT_def]
      by_cases hc : (cleanValues vs).isEmpty = true
      · rw [if_pos hc]
      · rw [if_neg hc, if_pos h]
  · intro name vs h
    unfold sfFieldType
    rw [if_pos]
    have : TEXT_FIELD_INDICATORS.any (fun ind => strContains name ind) = true := by
      rw [List.any_eq_true]
      exact ⟨"phone", by decide, h⟩
    rw [this]

/-- C4 witness: a `home_phone` column with numeric samples stays Text in
all three inferencers. -/
theorem c4_phone_tokens_force_text_witness :
    (inferTypeCsv ["5551234", "5551235"] "home_phone" = .longTextArea
      ∧ inferTypeMT ["5551234", "5551235"] "home_phone" = .longTextArea)
      ∧ sfFieldType "phone" ["5551234"] = .longTextArea :=
  ⟨c4_phone_tokens_force_text.1 ["5551234", "5551235"] "home_phone" (Or.inl (by decide)),
   c4_phone_tokens_force_text.2 "phone" ["5551234"] (by decide)⟩

/-- C4 counterexample: in the `import_salesforce.py` pipeline a column
named `mobile` whose samples all look numeric is inferred as Number, not
Text — `mobile` (and `fax`) are not in `TEXT_FIELD_INDICATORS` and the
inline guard of `_infer_type_from_samples` checks only for `phone`. -/
theorem c4_counterexample_mobile_numeric :
    sfFieldType "mobile" ["5551234", "5559876"] = .number
      ∧ InferResult.number ≠ .longTextArea := by
  refine ⟨by decide, by decide⟩

/-- One step of the streaming loop preserves the batching invariant: every
submitted batch has between 1 and `batchSize` records, and the batch under
construction stays strictly below `batchSize`. -/
theorem csvStep_invariant (batchSize : Nat) (headers : List String)
    (tm : List (String × String)) (hbs : 1 ≤ batchSize)
    (acc : List (List Record) × List Record) (row : List String)
    (h1 : ∀ b ∈ acc.1, 1 ≤ b.length ∧ b.length ≤ batchSize)
    (h2 : acc.2.length < batchSize) :
    (∀ b ∈ (csvStep batchSize headers tm acc row).1, 1 ≤ b.length ∧ b.length ≤ batchSize)
      ∧ (csvStep batchSize headers tm acc row).2.length < batchSize := by
  simp only [csvStep]
  by_cases hm : meaningful (buildRecord headers tm row acc.2.length) = true
  · rw [if_pos hm]
    by_cases hfull : (acc.2 ++ [buildRecord headers tm row acc.2.length]).length ≥ batchSize
    · rw [if_pos hfull]
      refine ⟨?_, by simpa using hbs⟩
      intro b hb
      rcases List.mem_append.mp hb with h | h
      · exact h1 b h
      · rw [List.mem_singleton] at h
        subst h
        simp only [List.length_append, List.length_singleton]
        simp only [List.length_append, List.length_singleton] at hfull
        omega
    · rw [if_neg hfull]
      refine ⟨h1, ?_⟩
      simp only [List.length_append, List.length_singleton] at hfull ⊢
      omega
  · rw [if_neg hm]
    exact ⟨h1, h2⟩

/-- The batching invariant holds through the whole streaming fold. -/
theorem csvFold_batch_invariant (batchSize : Nat) (headers : List String)
    (tm : List (String × String)) (hbs : 1 ≤ batchSize) :
    ∀ (rows : List (List String)) (acc : List (List Record) × List Record),
      (∀ b ∈ acc.1, 1 ≤ b.length ∧ b.length ≤ batchSize) →
      acc.2.length < batchSize →
      (∀ b ∈ (rows.foldl (csvStep batchSize headers tm) acc).1,
          1 ≤ b.length ∧ b.length ≤ batchSize)
        ∧ (rows.foldl (csvStep batchSize headers tm) acc).2.length < batchSize := by
  intro rows
  induction rows with
  | nil => intro acc h1 h2; exact ⟨h1, h2⟩
  | cons r rs ih =>
    intro acc h1 h2
    rw [List.foldl_cons]
    have hstep := csvStep_invariant batchSize headers tm hbs acc r h1 h2
    exact ih _ hstep.1 hstep.2

/-- C5 (amended): for a header row with `0 < C ≤ 50000` columns and a
configured batch size of at least 1, the computed batch size never exceeds
`floor(50000 / C)`, and every batch handed to the bulk endpoint — the full
batches flushed inside the loop as well as the final partial one — holds
between 1 and the computed batch size records. -/
theorem c5_batch_size_bounds (cfg : Nat) (headers : List String)
    (tm : List (String × String)) (rows : List (List String))
    (hcfg : 1 ≤ cfg) (hpos : 0 < headers.length) (hC : headers.length ≤ 50000) :
    computedBatchSize cfg headers.length ≤ 50000 / headers.length
      ∧ ∀ b ∈ processRows cfg headers tm rows,
          1 ≤ b.length ∧ b.length ≤ computedBatchSize cfg headers.length := by
  have hbs : 1 ≤ computedBatchSize cfg headers.length := by
    unfold computedBatchSize
    rw [if_pos hpos]
    exact le_min hcfg ((Nat.one_le_div_iff hpos).mpr hC)
  constructor
  · unfold computedBatchSize
    rw [if_pos hpos]
    exact min_le_right _ _
  · intro b hb
    simp only [processRows] at hb
    have hinv := csvFold_batch_invariant (computedBatchSize cfg headers.length) headers tm
      hbs rows ([], []) (by intro x hx; exact absurd hx (List.not_mem_nil x)) (by simpa using hbs)
    by_cases hempty :
        (rows.foldl (csvStep (computedBatchSize cfg headers.length) headers tm) ([], [])).2.isEmpty = true
    · rw [if_pos hempty] at hb
      exact hinv.1 b hb
    · rw [if_neg hempty] at hb
      rcases List.mem_append.mp hb with h | h
      · exact hinv.1 b h
      · rw [List.mem_singleton] at h
        subst h
        have hlen : 0 < (rows.foldl (csvStep (computedBatchSize cfg headers.length) headers tm)
            ([], [])).2.length := by
          rcases List.isEmpty_iff.not.mp (by simpa using hempty) with _
          cases hl : (rows.foldl (csvStep (computedBatchSize cfg headers.length) headers tm)
              ([], [])).2 with
          | nil => simp [hl] at hempty
          | cons x xs => simp [hl]
        exact ⟨hlen, Nat.le_of_lt hinv.2⟩

/-- C5 witness: the computed batch size bound at a two-column table. -/
theorem c5_batch_size_bounds_witness :
    computedBatchSize 2 (["a", "b"] : List String).length
      ≤ 50000 / (["a", "b"] : List String).length :=
  (c5_batch_size_bounds 2 ["a", "b"] [] [["x", "y"]] (by decide) (by decide) (by decide)).1

/-- C5 counterexample: with a configured batch size of 0 (an allowed
`--batch-size` value) the computed batch size is 0, yet the loop still
submits a batch holding one record — violating the claimed
`|batch| ≤ batch_size` invariant (the same happens organically whenever
`C > 50000` makes `int(50000/C)` zero). -/
theorem c5_counterexample_zero_batch_size :
    0 < (["a"] : List String).length
      ∧ ((processRows 0 ["a"] [] [["x"]]).any
          (fun b => decide (b.length > computedBatchSize 0 (["a"] : List String).length)))
        = true := by
  refine ⟨by decide, by decide⟩

/-- A retryable outcome with fuel left: the `migration_tool` client sleeps
the current backoff, doubles it, discards the connection, and loops. -/
theorem requestMTGo_retry (t : Nat → NetOutcome) (attempt f backoff : Nat) (tr : ReqTrace)
    (h : retryableMT (t attempt) = true) :
    requestMTGo t attempt (f + 1) backoff tr
      = requestMTGo t (attempt + 1) f (backoff * 2)
          ⟨tr.attempts + 1, tr.discards + 1, tr.sleeps ++ [backoff]⟩ := by
  cases ht : t attempt with
  | exc m => simp only [requestMTGo, ht]
  | resp st b =>
    rw [ht] at h
    simp only [retryableMT, Bool.or_eq_true, decide_eq_true_eq] at h
    simp only [requestMTGo, ht]
    rw [if_pos h]

/-- A sub-400 response returns the body with no retry and no discard. -/
theorem requestMTGo_success (t : Nat → NetOutcome) (attempt fuel backoff : Nat)
    (tr : ReqTrace) (st : Nat) (b : String)
    (ht : t attempt = .resp st b) (h : st < 400) :
    requestMTGo t attempt fuel backoff tr
      = (.ok b, ⟨tr.attempts + 1, tr.discards, tr.sleeps⟩) := by
  cases fuel with
  | zero =>
    simp only [requestMTGo, ht]
    rw [if_neg (by omega), if_neg (by omega)]
  | succ f =>
    simp only [requestMTGo, ht]
    rw [if_neg (by omega), if_neg (by omega)]

/-- A non-429 4xx response is returned as an application error with no
retry and no discard. -/
theorem requestMTGo_err4xx (t : Nat → NetOutcome) (attempt fuel backoff : Nat)
    (tr : ReqTrace) (st : Nat) (b : String)
    (ht : t attempt = .resp st b) (h400 : 400 ≤ st) (h500 : st < 500) (h429 : st ≠ 429) :
    requestMTGo t attempt fuel backoff tr
      = (.err (apiError st b), ⟨tr.attempts + 1, tr.discards, tr.sleeps⟩) := by
  cases fuel with
  | zero =>
    simp only [requestMTGo, ht]
    rw [if_neg (by omega), if_pos (by omega)]
  | succ f =>
    simp only [requestMTGo, ht]
    rw [if_neg (by omega), if_pos (by omega)]

/-- A retryable outcome with no fuel left surfaces as an error; the
`migration_tool` client records the attempt but discards nothing more. -/
theorem requestMTGo_exhausted (t : Nat → NetOutcome) (attempt backoff : Nat)
    (tr : ReqTrace) (h : retryableMT (t attempt) = true) :
    (requestMTGo t attempt 0 backoff tr).2 = ⟨tr.attempts + 1, tr.discards, tr.sleeps⟩ := by
  cases ht : t attempt with
  | exc m => simp only [requestMTGo, ht]
  | resp st b =>
    rw [ht] at h
    simp only [retryableMT, Bool.or_eq_true, decide_eq_true_eq] at h
    simp only [requestMTGo, ht]
    rw [if_pos h]

/-- Salesforce-client analogue of `requestMTGo_retry` (5xx or exception). -/
theorem requestSFGo_retry (t : Nat → NetOutcome) (attempt f backoff : Nat) (tr : ReqTrace)
    (h : retryableSF (t attempt) = true) :
    requestSFGo t attempt (f + 1) backoff tr
      = requestSFGo t (attempt + 1) f (backoff * 2)
          ⟨tr.attempts + 1, tr.discards + 1, tr.sleeps ++ [backoff]⟩ := by
  cases ht : t attempt with
  | exc m => simp only [requestSFGo, ht]
  | resp st b =>
    rw [ht] at h
    simp only [retryableSF, decide_eq_true_eq] at h
    simp only [requestSFGo, ht]
    rw [if_pos h]

/-- Salesforce client: any 4xx (429 included) is returned as an application
error with no retry and no discard. -/
theorem requestSFGo_err4xx (t : Nat → NetOutcome) (attempt fuel backoff : Nat)
    (tr : ReqTrace) (st : Nat) (b : String)
    (ht : t attempt = .resp st b) (h400 : 400 ≤ st) (h500 : st < 500) :
    requestSFGo t attempt fuel backoff tr
      = (.err (apiError st b), ⟨tr.attempts + 1, tr.discards, tr.sleeps⟩) := by
  cases fuel with
  | zero =>
    simp only [requestSFGo, ht]
    rw [if_neg (by omega), if_pos (by omega)]
  | succ f =>
    simp only [requestSFGo, ht]
    rw [if_neg (by omega), if_pos (by omega)]

/-- Salesforce client, fuel exhausted on a retryable outcome: one more
attempt is recorded and no further sleep happens (the exception branch
still discards the connection). -/
theorem requestSFGo_exhausted (t : Nat → NetOutcome) (attempt backoff : Nat)
    (tr : ReqTrace) (h : retryableSF (t attempt) = true) :
    (requestSFGo t attempt 0 backoff tr).2.attempts = tr.attempts + 1
      ∧ (requestSFGo t attempt 0 backoff tr).2.sleeps = tr.sleeps := by
  cases ht : t attempt with
  | exc m =>
    simp only [requestSFGo, ht]
    simp
  | resp st b =>
    rw [ht] at h
    simp only [retryableSF, decide_eq_true_eq] at h
    simp only [requestSFGo, ht]
    rw [if_pos h]
    simp

/-- C6 (amended): the `migration_tool` client retries connection errors,
5xx and 429 up to the fixed retry count (3 retries, 4 attempts total) with
exponential backoff 1, 2, 4 and a connection discard before each retry,
while any other 4xx is returned to the caller as an application error
immediately, with no retry and no discard.  The `import_salesforce.py`
client retries only connection errors and 5xx: every 4xx — 429 included —
is returned immediately as an application error, with no retry and no
discard.  Part one: MT, immediate non-429 4xx error.  Part two: MT, all
outcomes retryable gives 4 attempts, 3 discards, backoffs 1, 2, 4.  Part
three: MT, success after `k ≤ 3` retryable outcomes gives `k+1` attempts,
`k` discards, the first `k` backoffs.  Part four: SF, immediate error for
every 4xx including 429.  Part five: SF, all outcomes retryable gives 4
attempts with backoffs 1, 2, 4. -/
theorem c6_client_retry_semantics :
    (∀ (t : Nat → NetOutcome) (st : Nat) (b : String),
      t 0 = .resp st b → 400 ≤ st → st < 500 → st ≠ 429 →
      requestMT t = (.err (apiError st b), ⟨1, 0, []⟩))
    ∧ (∀ t : Nat → NetOutcome,
      (∀ i, i ≤ 3 → retryableMT (t i) = true) →
      (requestMT t).2 = ⟨4, 3, [1, 2, 4]⟩)
    ∧ (∀ (t : Nat → NetOutcome) (k st : Nat) (b : String),
      k ≤ 3 → (∀ i, i < k → retryableMT (t i) = true) →
      t k = .resp st b → st < 400 →
      requestMT t = (.ok b, ⟨k + 1, k, [1, 2, 4].take k⟩))
    ∧ (∀ (t : Nat → NetOutcome) (st : Nat) (b : String),
      t 0 = .resp st b → 400 ≤ st → st < 500 →
      requestSF t = (.err (apiError st b), ⟨1, 0, []⟩))
    ∧ (∀ t : Nat → NetOutcome,
      (∀ i, i ≤ 3 → retryableSF (t i) = true) →
      (requestSF t).2.attempts = 4 ∧ (requestSF t).2.sleeps = [1, 2, 4]) := by
  refine ⟨?_, ?_, ?_, ?_, ?_⟩
  · intro t st b ht h400 h500 h429
    unfold requestMT
    rw [requestMTGo_err4xx t 0 3 1 ⟨0, 0, []⟩ st b ht h400 h500 h429]
  · intro t hret
    have s1 : requestMTGo t 0 3 1 ⟨0, 0, []⟩ = requestMTGo t 1 2 2 ⟨1, 1, [1]⟩ :=
      requestMTGo_retry t 0 2 1 ⟨0, 0, []⟩ (hret 0 (by omega))
    have s2 : requestMTGo t 1 2 2 ⟨1, 1, [1]⟩ = requestMTGo t 2 1 4 ⟨2, 2, [1, 2]⟩ :=
      requestMTGo_retry t 1 1 2 ⟨1, 1, [1]⟩ (hret 1 (by omega))
    have s3 : requestMTGo t 2 1 4 ⟨2, 2, [1, 2]⟩ = requestMTGo t 3 0 8 ⟨3, 3, [1, 2, 4]⟩ :=
      requestMTGo_retry t 2 0 4 ⟨2, 2, [1, 2]⟩ (hret 2 (by omega))
    unfold requestMT
    rw [s1, s2, s3]
    exact requestMTGo_exhausted t 3 8 ⟨3, 3, [1, 2, 4]⟩ (hret 3 (by omega))
  · intro t k st b hk hret ht hst
    interval_cases k
    · unfold requestMT
      rw [requestMTGo_success t 0 3 1 ⟨0, 0, []⟩ st b ht hst]
      rfl
    · have s1 : requestMTGo t 0 3 1 ⟨0, 0, []⟩ = requestMTGo t 1 2 2 ⟨1, 1, [1]⟩ :=
        requestMTGo_retry t 0 2 1 ⟨0, 0, []⟩ (hret 0 (by omega))
      unfold requestMT
      rw [s1, requestMTGo_success t 1 2 2 ⟨1, 1, [1]⟩ st b ht hst]
      rfl
    · have s1 : requestMTGo t 0 3 1 ⟨0, 0, []⟩ = requestMTGo t 1 2 2 ⟨1, 1, [1]⟩ :=
        requestMTGo_retry t 0 2 1 ⟨0, 0, []⟩ (hret 0 (by omega))
      have s2 : requestMTGo t 1 2 2 ⟨1, 1, [1]⟩ = requestMTGo t 2 1 4 ⟨2, 2, [1, 2]⟩ :=
        requestMTGo_retry t 1 1 2 ⟨1, 1, [1]⟩ (hret 1 (by omega))
      unfold requestMT
      rw [s1, s2, requestMTGo_success t 2 1 4 ⟨2, 2, [1, 2]⟩ st b ht hst]
      rfl
    · have s1 : requestMTGo t 0 3 1 ⟨0, 0, []⟩ = requestMTGo t 1 2 2 ⟨1, 1, [1]⟩ :=
        requestMTGo_retry t 0 2 1 ⟨0, 0, []⟩ (hret 0 (by omega))
      have s2 : requestMTGo t 1 2 2 ⟨1, 1, [1]⟩ = requestMTGo t 2 1 4 ⟨2, 2, [1, 2]⟩ :=
        requestMTGo_retry t 1 1 2 ⟨1, 1, [1]⟩ (hret 1 (by omega))
      have s3 : requestMTGo t 2 1 4 ⟨2, 2, [1, 2]⟩ = requestMTGo t 3 0 8 ⟨3, 3, [1, 2, 4]⟩ :=
        requestMTGo_retry t 2 0 4 ⟨2, 2, [1, 2]⟩ (hret 2 (by omega))
      unfold requestMT
      rw [s1, s2, s3, requestMTGo_success t 3 0 8 ⟨3, 3, [1, 2, 4]⟩ st b ht hst]
      rfl
  · intro t st b ht h400 h500
    unfold requestSF
    rw [requestSFGo_err4xx t 0 3 1 ⟨0, 0, []⟩ st b ht h400 h500]
  · intro t hret
    have s1 : requestSFGo t 0 3 1 ⟨0, 0, []⟩ = requestSFGo t 1 2 2 ⟨1, 1, [1]⟩ :=
      requestSFGo_retry t 0 2 1 ⟨0, 0, []⟩ (hret 0 (by omega))
    have s2 : requestSFGo t 1 2 2 ⟨1, 1, [1]⟩ = requestSFGo t 2 1 4 ⟨2, 2, [1, 2]⟩ :=
      requestSFGo_retry t 1 1 2 ⟨1, 1, [1]⟩ (hret 1 (by omega))
    have s3 : requestSFGo t 2 1 4 ⟨2, 2, [1, 2]⟩ = requestSFGo t 3 0 8 ⟨3, 3, [1, 2, 4]⟩ :=
      requestSFGo_retry t 2 0 4 ⟨2, 2, [1, 2]⟩ (hret 2 (by omega))
    unfold requestSF
    rw [s1, s2, s3]
    exact requestSFGo_exhausted t 3 8 ⟨3, 3, [1, 2, 4]⟩ (hret 3 (by omega))

/-- C6 witness: the five parts applied at concrete transports. -/
theorem c6_client_retry_semantics_witness :
    requestMT (fun _ => .resp 404 "nope") = (.err (apiError 404 "nope"), ⟨1, 0, []⟩)
      ∧ (requestMT (fun _ => .exc "reset")).2 = ⟨4, 3, [1, 2, 4]⟩
      ∧ requestMT (fun n => if n < 2 then .resp 503 "down" else .resp 200 "okay")
          = (.ok "okay", ⟨3, 2, [1, 2]⟩)
      ∧ requestSF (fun _ => .resp 429 "slow") = (.err (apiError 429 "slow"), ⟨1, 0, []⟩)
      ∧ (requestSF (fun _ => .exc "reset")).2.attempts = 4 := by
  refine ⟨?_, ?_, ?_, ?_, ?_⟩
  · exact c6_client_retry_semantics.1 _ 404 "nope" rfl (by omega) (by omega) (by omega)
  · exact c6_client_retry_semantics.2.1 _ (fun i _ => by decide)
  · exact c6_client_retry_semantics.2.2.1 _ 2 200 "okay" (by omega)
      (fun i hi => by interval_cases i <;> decide) rfl (by omega)
  · exact c6_client_retry_semantics.2.2.2.1 _ 429 "slow" rfl (by omega) (by omega)
  · exact (c6_client_retry_semantics.2.2.2.2 _ (fun i _ => by decide)).1

/-- C6 counterexample: a 429 response to the salesforce-importer client is
returned after a single attempt, with no retry, no backoff sleep and no
connection discard — the claim says 5xx and 429 alike are retried up to
the fixed retry count. -/
theorem c6_counterexample_sf_429_not_retried :
    requestSF (fun _ => .resp 429 "slow down")
      = (.err (apiError 429 "slow down"), ⟨1, 0, []⟩) := by decide

/-- One `_handle_bulk_error` call under an always-accepting backend keeps
`corrected_fields` equal to the patch trace, keeps the trace duplicate-free,
and extends it exactly by the fields newly parsed from the message. -/
theorem handleBulkError_allOk (st : HealSt) (m : String)
    (hcp : st.corrected = st.patches) (hnd : st.patches.Nodup) :
    ((handleBulkError (fun _ => true) st m).corrected
        = (handleBulkError (fun _ => true) st m).patches)
      ∧ (handleBulkError (fun _ => true) st m).patches.Nodup
      ∧ ∀ f, f ∈ (handleBulkError (fun _ => true) st m).patches ↔
          f ∈ st.patches ∨ parsedField m = some f := by
  unfold parsedField
  cases hp : parseValidationError m with
  | none =>
    simp only [handleBulkError, hp]
    refine ⟨hcp, hnd, fun f => ?_⟩
    simp
  | some pr =>
    obtain ⟨g, ty⟩ := pr
    simp only [handleBulkError, hp]
    by_cases hg : st.corrected.contains g = true
    · rw [if_pos hg]
      have hgmem : g ∈ st.patches := by
        rw [← hcp]
        exact List.elem_iff.mp hg
      refine ⟨hcp, hnd, fun f => ?_⟩
      simp only [Option.map_some', Option.some.injEq]
      constructor
      · exact fun h => Or.inl h
      · rintro (h | h)
        · exact h
        · rw [← h]; exact hgmem
    · rw [if_neg hg]
      have hgnot : g ∉ st.patches := by
        rw [← hcp]
        intro hmem
        exact hg (List.elem_iff.mpr hmem)
      rw [if_pos trivial]
      refine ⟨by rw [hcp], ?_, fun f => ?_⟩
      · rw [List.nodup_append]
        exact ⟨hnd, List.nodup_singleton g, by
          intro x hx hx2
          rw [List.mem_singleton] at hx2
          subst hx2
          exact hgnot hx⟩
      · simp only [List.mem_append, List.mem_singleton, Option.map_some', Option.some.injEq]
        constructor
        · rintro (h | h)
          · exact Or.inl h
          · exact Or.inr h.symm
        · rintro (h | h)
          · exact Or.inl h
          · exact Or.inr h.symm

/-- `handleBulkError_allOk` extended along a list of messages. -/
theorem healFold_allOk (msgs : List String) :
    ∀ st : HealSt, st.corrected = st.patches → st.patches.Nodup →
      ((msgs.foldl (handleBulkError (fun _ => true)) st).corrected
          = (msgs.foldl (handleBulkError (fun _ => true)) st).patches)
        ∧ (msgs.foldl (handleBulkError (fun _ => true)) st).patches.Nodup
        ∧ ∀ f, f ∈ (msgs.foldl (handleBulkError (fun _ => true)) st).patches ↔
            f ∈ st.patches ∨ ∃ m ∈ msgs, parsedField m = some f := by
  induction msgs with
  | nil =>
    intro st hcp hnd
    refine ⟨hcp, hnd, fun f => ?_⟩
    simp
  | cons m ms ih =>
    intro st hcp hnd
    have hstep := handleBulkError_allOk st m hcp hnd
    have hrest := ih (handleBulkError (fun _ => true) st m) hstep.1 hstep.2.1
    rw [List.foldl_cons]
    refine ⟨hrest.1, hrest.2.1, fun f => ?_⟩
    rw [hrest.2.2 f, hstep.2.2 f]
    simp only [List.mem_cons]
    constructor
    · rintro ((h | h) | ⟨m2, hm2, hp2⟩)
      · exact Or.inl h
      · exact Or.inr ⟨m, Or.inl rfl, h⟩
      · exact Or.inr ⟨m2, Or.inr hm2, hp2⟩
    · rintro (h | ⟨m2, (hm2 | hm2), hp2⟩)
      · exact Or.inl (Or.inl h)
      · subst hm2; exact Or.inl (Or.inr hp2)
      · exact Or.inr ⟨m2, hm2, hp2⟩

/-- `healFold_allOk` lifted to the per-batch structure of a run: batches
contribute only their first 10 errors, in order. -/
theorem runHealFold_allOk (batches : List (List String)) :
    ∀ st : HealSt, st.corrected = st.patches → st.patches.Nodup →
      ((batches.foldl (processBatchErrors (fun _ => true)) st).corrected
          = (batches.foldl (processBatchErrors (fun _ => true)) st).patches)
        ∧ (batches.foldl (processBatchErrors (fun _ => true)) st).patches.Nodup
        ∧ ∀ f, f ∈ (batches.foldl (processBatchErrors (fun _ => true)) st).patches ↔
            f ∈ st.patches ∨ ∃ errs ∈ batches, ∃ m ∈ errs.take 10, parsedField m = some f := by
  induction batches with
  | nil =>
    intro st hcp hnd
    refine ⟨hcp, hnd, fun f => ?_⟩
    simp
  | cons e es ih =>
    intro st hcp hnd
    have hstep := healFold_allOk (e.take 10) st hcp hnd
    have hrest := ih ((e.take 10).foldl (handleBulkError (fun _ => true)) st)
      hstep.1 hstep.2.1
    rw [List.foldl_cons]
    refine ⟨hrest.1, hrest.2.1, fun f => ?_⟩
    have : processBatchErrors (fun _ => true) st e
        = (e.take 10).foldl (handleBulkError (fun _ => true)) st := rfl
    rw [this, hrest.2.2 f, hstep.2.2 f]
    simp only [List.mem_cons]
    constructor
    · rintro ((h | ⟨m, hm, hp⟩) | ⟨e2, he2, m2, hm2, hp2⟩)
      · exact Or.inl h
      · exact Or.inr ⟨e, Or.inl rfl, m, hm, hp⟩
      · exact Or.inr ⟨e2, Or.inr he2, m2, hm2, hp2⟩
    · rintro (h | ⟨e2, (he2 | he2), m2, hm2, hp2⟩)
      · exact Or.inl (Or.inl h)
      · subst he2; exact Or.inl (Or.inr ⟨m2, hm2, hp2⟩)
      · exact Or.inr ⟨e2, he2, m2, hm2, hp2⟩

/-- Field-update `PATCH` calls are never bulk posts. -/
theorem filter_isBulkPost_map_patchField (l : List String) :
    (l.map ApiCall.patchField).filter isBulkPost = [] := by
  induction l with
  | nil => rfl
  | cons x xs ih => simp [isBulkPost, ih]

/-- C7: within one run (modelled with a backend that accepts every
downgrade, the claim's "successful downgrade" case), the first observed
bulk error matching the type-mismatch signature for a field triggers
exactly one downgrade `PATCH` of that field — the patch trace holds each
field at most once, holds it exactly once precisely when some batch's first
10 errors parse to it, and every patched field is recorded in
`corrected_fields`.  Moreover `process_batch` issues exactly one bulk
`POST`, carrying the original records: failed rows are never re-submitted
within the run, whatever the backend answers to the patches. -/
theorem c7_self_healing_downgrade :
    (∀ (batchErrors : List (List String)) (f : String),
      (runHeal (fun _ => true) batchErrors).patches.count f ≤ 1
        ∧ ((runHeal (fun _ => true) batchErrors).patches.count f = 1 ↔
            ∃ errs ∈ batchErrors, ∃ m ∈ errs.take 10, parsedField m = some f)
        ∧ (runHeal (fun _ => true) batchErrors).corrected
            = (runHeal (fun _ => true) batchErrors).patches)
    ∧ ∀ (patchOk : Nat → Bool) (st : HealSt) (recordCount failedCount : Nat)
        (errors : List String),
      ((processBatchCalls patchOk st recordCount failedCount errors).2.filter isBulkPost)
        = [.bulkPost recordCount] := by
  constructor
  · intro batchErrors f
    have h := runHealFold_allOk batchErrors ⟨[], [], 0⟩ rfl List.nodup_nil
    have hrun : runHeal (fun _ => true) batchErrors
        = batchErrors.foldl (processBatchErrors (fun _ => true)) ⟨[], [], 0⟩ := rfl
    rw [hrun]
    refine ⟨List.nodup_iff_count_le_one.mp h.2.1 f, ?_, h.1⟩
    have hmem := h.2.2 f
    have hle := List.nodup_iff_count_le_one.mp h.2.1 f
    constructor
    · intro hc
      have hf : f ∈ (batchErrors.foldl (processBatchErrors (fun _ => true))
          ⟨[], [], 0⟩).patches := List.count_pos_iff.mp (by omega)
      rcases hmem.mp hf with h0 | h1
      · exact absurd h0 (List.not_mem_nil f)
      · exact h1
    · intro hex
      have hf := hmem.mpr (Or.inr hex)
      have hpos := List.count_pos_iff.mpr hf
      omega
  · intro pk st rc fc errors
    simp only [processBatchCalls, List.filter_cons]
    rw [filter_isBulkPost_map_patchField]
    rfl

/-- The inner chunk loop never pushes the sample count past `limit` when it
starts below it (it breaks as soon as `limit` is reached). -/
theorem readChunkRows_le (rows : List (List String)) (limit : Nat) :
    ∀ (quota : Nat) (st : SamplerSt), st.samples.length < limit →
      (readChunkRows rows limit quota st).samples.length ≤ limit := by
  intro quota
  induction quota with
  | zero => intro st h; exact Nat.le_of_lt h
  | succ q ih =>
    intro st h
    unfold readChunkRows
    by_cases hc : st.cursor < rows.length
    · rw [if_pos hc]
      by_cases hfull : (st.samples ++ [rows.getD st.cursor []]).length ≥ limit
      · rw [if_pos hfull]
        simp only [List.length_append, List.length_singleton]
        omega
      · rw [if_neg hfull]
        apply ih
        simp only [List.length_append, List.length_singleton] at hfull ⊢
        omega
    · rw [if_neg hc]
      exact Nat.le_of_lt h

/-- Seeking only moves the cursor, never the collected samples. -/
theorem runChunks_seek_samples (rows : List (List String))
    (limit chunkSize totalBytes : Nat) (seekTo : Nat → Nat) (i : Nat) (st : SamplerSt) :
    ((if i = 0 then st
      else if totalBytes > 50000 then { st with cursor := seekTo i } else st) : SamplerSt).samples
      = st.samples := by
  by_cases h0 : i = 0
  · rw [if_pos h0]
  · rw [if_neg h0]
    by_cases hb : totalBytes > 50000
    · rw [if_pos hb]
    · rw [if_neg hb]

/-- The whole chunked sampling loop respects the `limit` bound. -/
theorem runChunks_le (rows : List (List String)) (limit chunkSize totalBytes : Nat)
    (seekTo : Nat → Nat) :
    ∀ (fuel i : Nat) (st : SamplerSt), st.samples.length < limit →
      (runChunks rows limit chunkSize totalBytes seekTo fuel i st).samples.length ≤ limit := by
  intro fuel
  induction fuel with
  | zero => intro i st h; exact Nat.le_of_lt h
  | succ f ih =>
    intro i st h
    unfold runChunks
    have hseek := runChunks_seek_samples rows limit chunkSize totalBytes seekTo i st
    have hst1 : ((if i = 0 then st
        else if totalBytes > 50000 then { st with cursor := seekTo i } else st) :
          SamplerSt).samples.length < limit := by rw [hseek]; exact h
    have hchunk := readChunkRows_le rows limit chunkSize _ hst1
    by_cases hstop : (readChunkRows rows limit chunkSize
        (if i = 0 then st
         else if totalBytes > 50000 then { st with cursor := seekTo i } else st)).samples.length
        ≥ limit
    · rw [if_pos hstop]
      exact hchunk
    · rw [if_neg hstop]
      apply ih
      omega

/-- On an empty file the chunk loop reads nothing (`StopIteration` at every
`next`). -/
theorem readChunkRows_nil (limit : Nat) :
    ∀ (quota : Nat) (st : SamplerSt), readChunkRows [] limit quota st = st := by
  intro quota
  induction quota with
  | zero => intro st; rfl
  | succ q _ =>
    intro st
    unfold readChunkRows
    rw [if_neg (by simp)]

/-- On an empty file the whole sampling loop collects nothing. -/
theorem runChunks_nil (limit chunkSize totalBytes : Nat) (seekTo : Nat → Nat) :
    ∀ (fuel i : Nat) (st : SamplerSt),
      (runChunks [] limit chunkSize totalBytes seekTo fuel i st).samples = st.samples := by
  intro fuel
  induction fuel with
  | zero => intro i st; rfl
  | succ f ih =>
    intro i st
    simp only [runChunks]
    rw [readChunkRows_nil]
    have hseek := runChunks_seek_samples [] limit chunkSize totalBytes seekTo i st
    by_cases hstop : ((if i = 0 then st
        else if totalBytes > 50000 then { st with cursor := seekTo i } else st) :
          SamplerSt).samples.length ≥ limit
    · rw [if_pos hstop]
      exact hseek
    · rw [if_neg hstop]
      rw [ih]
      exact hseek

/-- C9: the sampler collects every data row when the configured limit is
non-positive (full scan); with a positive limit it never collects more than
`limit` rows, whatever the byte size and wherever the chunk seeks land; and
an empty or header-only file (no data rows) yields zero samples. -/
theorem c9_sampler_bounds (rows : List (List String)) (totalBytes : Nat)
    (limit : Int) (seekTo : Nat → Nat) :
    (limit ≤ 0 → sampleRows rows totalBytes limit seekTo = rows)
      ∧ (0 < limit → (sampleRows rows totalBytes limit seekTo).length ≤ limit.toNat)
      ∧ (rows = [] → sampleRows rows totalBytes limit seekTo = []) := by
  refine ⟨?_, ?_, ?_⟩
  · intro h
    unfold sampleRows
    rw [if_pos h]
  · intro h
    unfold sampleRows
    rw [if_neg (by omega)]
    apply runChunks_le
    show ([] : List (List String)).length < limit.toNat
    simp only [List.length_nil]
    omega
  · intro h
    subst h
    unfold sampleRows
    by_cases hle : limit ≤ 0
    · rw [if_pos hle]
    · rw [if_neg hle]
      rw [runChunks_nil]

/-- C9 witness: the three cases at concrete inputs. -/
theorem c9_sampler_bounds_witness :
    sampleRows [["a"], ["b"]] 10 0 (fun _ => 0) = [["a"], ["b"]]
      ∧ (sampleRows [["a"], ["b"], ["c"]] 10 2 (fun _ => 0)).length ≤ (2 : Int).toNat
      ∧ sampleRows [] 99 7 (fun _ => 1) = [] :=
  ⟨(c9_sampler_bounds [["a"], ["b"]] 10 0 (fun _ => 0)).1 (by omega),
   (c9_sampler_bounds [["a"], ["b"], ["c"]] 10 2 (fun _ => 0)).2.1 (by omega),
   (c9_sampler_bounds [] 99 7 (fun _ => 1)).2.2 rfl⟩

/-- Replacing the `k`-entry in place: the first entry whose key is `k`
becomes `(k, v)` and is what a subsequent lookup finds. -/
theorem find?_map_repl_self (k : String) (v : PyVal) :
    ∀ r : Record, r.any (fun q => q.1 = k) = true →
      (r.map (fun q => if q.1 = k then (k, v) else q)).find? (fun q => q.1 = k)
        = some (k, v) := by
  intro r
  induction r with
  | nil => intro h; simp at h
  | cons q qs ih =>
    intro h
    by_cases hq : q.1 = k
    · simp only [List.map_cons, if_pos hq, List.find?]
      simp
    · have hqs : qs.any (fun q => q.1 = k) = true := by
        simpa [List.any_cons, hq] using h
      simp only [List.map_cons, if_neg hq, List.find?]
      rw [show (decide (q.1 = k)) = false by simp [hq]]
      exact ih hqs

/-- Replacing the `k'`-entries leaves lookups of any other key unchanged. -/
theorem find?_map_repl_ne (k' k : String) (v : PyVal) (h : k' ≠ k) :
    ∀ r : Record,
      (r.map (fun q => if q.1 = k' then (k', v) else q)).find? (fun q => q.1 = k)
        = r.find? (fun q => q.1 = k) := by
  intro r
  induction r with
  | nil => rfl
  | cons q qs ih =>
    by_cases hq : q.1 = k'
    · simp only [List.map_cons, if_pos hq, List.find?]
      rw [show (decide ((k', v).1 = k)) = false by simp [h]]
      rw [show (decide (q.1 = k)) = false by simp [hq, h]]
      exact ih
    · simp only [List.map_cons, if_neg hq, List.find?]
      by_cases hqk : q.1 = k
      · rw [show (decide (q.1 = k)) = true by simp [hqk]]
      · rw [show (decide (q.1 = k)) = false by simp [hqk]]
        exact ih

/-- Appending a fresh `(k, v)` entry: looking `k` up finds it. -/
theorem find?_append_single_self (k : String) (v : PyVal) :
    ∀ r : Record, r.any (fun q => q.1 = k) = false →
      (r ++ [(k, v)]).find? (fun q => q.1 = k) = some (k, v) := by
  intro r
  induction r with
  | nil =>
    intro _
    simp only [List.nil_append, List.find?]
    simp
  | cons q qs ih =>
    intro h
    have hq : (q.1 = k) = False := by
      by_contra hne
      simp only [List.any_cons] at h
      rcases Bool.or_eq_false_iff.mp h with ⟨h1, _⟩
      simp only [decide_eq_false_iff_not] at h1
      exact h1 (of_eq_true (by simpa using hne))
    have hqs : qs.any (fun q => q.1 = k) = false := by
      simp only [List.any_cons] at h
      exact (Bool.or_eq_false_iff.mp h).2
    simp only [List.cons_append, List.find?]
    rw [show (decide (q.1 = k)) = false by simp [hq]]
    exact ih hqs

/-- Appending a `(k', v)` entry leaves lookups of any other key unchanged. -/
theorem find?_append_single_ne (k' k : String) (v : PyVal) (h : k' ≠ k) :
    ∀ r : Record, (r ++ [(k', v)]).find? (fun q => q.1 = k) = r.find? (fun q => q.1 = k) := by
  intro r
  induction r with
  | nil =>
    simp only [List.nil_append, List.find?]
    rw [show (decide ((k', v).1 = k)) = false by simp [h]]
  | cons q qs ih =>
    simp only [List.cons_append, List.find?]
    by_cases hqk : q.1 = k
    · rw [show (decide (q.1 = k)) = true by simp [hqk]]
    · rw [show (decide (q.1 = k)) = false by simp [hqk]]
      exact ih

/-- Looking up the freshly assigned key of a Python dict returns the new
value. -/
theorem dictGetVal_dictInsert_self (r : Record) (k : String) (v : PyVal) :
    dictGetVal (dictInsert r k v) k = some v := by
  unfold dictInsert dictGetVal
  cases hany : r.any (fun q => q.1 = k) with
  | true =>
    rw [if_pos rfl, find?_map_repl_self k v r hany]
    rfl
  | false =>
    rw [if_neg Bool.false_ne_true, find?_append_single_self k v r hany]
    rfl

/-- Assigning one key of a Python dict leaves every other lookup alone. -/
theorem dictGetVal_dictInsert_ne (r : Record) (k' k : String) (v : PyVal) (h : k' ≠ k) :
    dictGetVal (dictInsert r k' v) k = dictGetVal r k := by
  unfold dictInsert dictGetVal
  cases hany : r.any (fun q => q.1 = k') with
  | true => rw [if_pos rfl, find?_map_repl_ne k' k v h r]
  | false => rw [if_neg Bool.false_ne_true, find?_append_single_ne k' k v h r]

/-- One cell of the record-building loop (definitional unfolding). -/
theorem buildCells_cons (headers : List String) (tm : List (String × String))
    (i : Nat) (v : String) (vs : List String) (r : Record) :
    buildCells headers tm i (v :: vs) r
      = buildCells headers tm (i + 1) vs
          (if i ≥ headers.length then r
           else if normHeader (headers.getD i "") = "" then r
           else if v = "" then r
           else dictInsert r (normHeader (headers.getD i ""))
                  (applyNorm tm (normHeader (headers.getD i "")) v)) := rfl

/-- An empty cell never touches the record. -/
theorem buildCells_cons_empty (headers : List String) (tm : List (String × String))
    (i : Nat) (vs : List String) (r : Record) :
    buildCells headers tm i ("" :: vs) r = buildCells headers tm (i + 1) vs r := by
  rw [buildCells_cons]
  congr 1
  by_cases h1 : i ≥ headers.length
  · rw [if_pos h1]
  · rw [if_neg h1]
    by_cases h2 : normHeader (headers.getD i "") = ""
    · rw [if_pos h2]
    · rw [if_neg h2, if_pos rfl]

/-- A run of empty cells never touches the record. -/
theorem buildCells_replicate (headers : List String) (tm : List (String × String)) :
    ∀ (k i : Nat) (r : Record), buildCells headers tm i (List.replicate k "") r = r := by
  intro k
  induction k with
  | zero => intro i r; rfl
  | succ n ih =>
    intro i r
    rw [List.replicate_succ, buildCells_cons_empty]
    exact ih (i + 1) r

/-- Splitting the cell loop at a list append. -/
theorem buildCells_append (headers : List String) (tm : List (String × String)) :
    ∀ (xs ys : List String) (i : Nat) (r : Record),
      buildCells headers tm i (xs ++ ys) r
        = buildCells headers tm (i + xs.length) ys (buildCells headers tm i xs r) := by
  intro xs
  induction xs with
  | nil =>
    intro ys i r
    simp [buildCells]
  | cons x xs ih =>
    intro ys i r
    rw [List.cons_append, buildCells_cons, ih, buildCells_cons]
    simp only [List.length_cons]
    have harith : i + 1 + xs.length = i + (xs.length + 1) := by omega
    rw [harith]

/-- Definitional unfolding of `lastWrite` on a cons cell. -/
theorem lastWrite_cons (headers : List String) (name : String) (i : Nat)
    (v : String) (vs : List String) :
    lastWrite headers name i (v :: vs)
      = match lastWrite headers name (i + 1) vs with
        | some w => some w
        | none =>
          if i < headers.length ∧ name ≠ "" ∧ normHeader (headers.getD i "") = name ∧ v ≠ ""
          then some v else none := rfl

/-- The record built by the cell loop answers a lookup with the normalized
value of the right-most writing cell, falling back to the initial record
when no cell writes the key. -/
theorem dictGetVal_buildCells (headers : List String) (tm : List (String × String))
    (name : String) :
    ∀ (vs : List String) (i : Nat) (r : Record),
      dictGetVal (buildCells headers tm i vs r) name
        = match lastWrite headers name i vs with
          | some w => some (applyNorm tm name w)
          | none => dictGetVal r name := by
  intro vs
  induction vs with
  | nil => intro i r; rfl
  | cons v vs ih =>
    intro i r
    rw [buildCells_cons, ih, lastWrite_cons]
    cases hlw : lastWrite headers name (i + 1) vs with
    | some w => rfl
    | none =>
      by_cases hcond :
          i < headers.length ∧ name ≠ "" ∧ normHeader (headers.getD i "") = name ∧ v ≠ ""
      · rw [if_pos hcond]
        obtain ⟨h1, h2, h3, h4⟩ := hcond
        rw [if_neg (by omega), if_neg (by rw [h3]; exact h2), if_neg h4, h3]
        exact dictGetVal_dictInsert_self r name (applyNorm tm name v)
      · rw [if_neg hcond]
        by_cases hr1 : i ≥ headers.length
        · rw [if_pos hr1]
        · rw [if_neg hr1]
          by_cases hr2 : normHeader (headers.getD i "") = ""
          · rw [if_pos hr2]
          · rw [if_neg hr2]
            by_cases hr3 : v = ""
            · rw [if_pos hr3]
            · rw [if_neg hr3]
              apply dictGetVal_dictInsert_ne
              intro heq
              exact hcond ⟨by omega, by rw [← heq]; exact hr2, heq, hr3⟩

/-- When no scanned cell satisfies the write conditions for `name`,
`lastWrite` is `none`. -/
theorem lastWrite_eq_none (headers : List String) (name : String) :
    ∀ (vs : List String) (i : Nat),
      (∀ j, j < vs.length →
        ¬(i + j < headers.length ∧ name ≠ ""
            ∧ normHeader (headers.getD (i + j) "") = name ∧ vs.getD j "" ≠ "")) →
      lastWrite headers name i vs = none := by
  intro vs
  induction vs with
  | nil => intro i _; rfl
  | cons v vs ih =>
    intro i h
    rw [lastWrite_cons]
    rw [ih (i + 1) (fun j hj => by
      have hmain := h (j + 1) (by simpa using Nat.succ_lt_succ hj)
      rw [show i + (j + 1) = i + 1 + j by omega] at hmain
      simpa using hmain)]
    rw [if_neg (by
      have hmain := h 0 (by simp)
      simpa using hmain)]

/-- Splitting `lastWrite` at a list append: the right part wins when it has
a write. -/
theorem lastWrite_append (headers : List String) (name : String) :
    ∀ (xs ys : List String) (i : Nat),
      lastWrite headers name i (xs ++ ys)
        = match lastWrite headers name (i + xs.length) ys with
          | some w => some w
          | none => lastWrite headers name i xs := by
  intro xs
  induction xs with
  | nil =>
    intro ys i
    simp only [List.nil_append, List.length_nil, Nat.add_zero]
    cases h : lastWrite headers name i ys with
    | some w => rfl
    | none => rfl
  | cons x xs ih =>
    intro ys i
    rw [List.cons_append, lastWrite_cons, ih ys (i + 1), lastWrite_cons]
    simp only [List.length_cons]
    rw [show i + 1 + xs.length = i + (xs.length + 1) by omega]
    cases h : lastWrite headers name (i + (xs.length + 1)) ys with
    | some w => rfl
    | none =>
      cases h2 : lastWrite headers name (i + 1) xs with
      | some w => rfl
      | none => rfl

/-- `getD` through `drop`. -/
theorem getD_drop_eq (d : String) :
    ∀ (n : Nat) (l : List String) (j : Nat), (l.drop n).getD j d = l.getD (n + j) d := by
  intro n
  induction n with
  | zero => intro l j; simp
  | succ m ih =>
    intro l j
    cases l with
    | nil => simp
    | cons x xs =>
      rw [List.drop_succ_cons, ih xs j, show m + 1 + j = (m + j) + 1 by omega,
        List.getD_cons_succ]

/-- `take (i+1)` splits off the `i`-th element. -/
theorem take_succ_eq_take_append (l : List String) :
    ∀ (i : Nat), i < l.length → l.take (i + 1) = l.take i ++ [l.getD i ""] := by
  induction l with
  | nil => intro i h; simp at h
  | cons x xs ih =>
    intro i h
    cases i with
    | zero => simp
    | succ m =>
      rw [List.take_succ_cons, List.take_succ_cons, List.getD_cons_succ,
        ih m (by simpa using Nat.lt_of_succ_lt_succ h), List.cons_append]

/-- C8: a source row shorter than the header list behaves exactly like the
same row padded with empty cells to any width — missing trailing columns
are absent values.  Their keys are absent from the built record (unless an
earlier cell wrote the same normalized name, or the key is the synthesized
`name`), and the streaming step treats the short row identically to its
padded form: it is built and batched like any other row, never dropped for
being short. -/
theorem c8_short_rows (headers : List String) (tm : List (String × String))
    (row : List String) (hshort : row.length < headers.length) :
    (∀ (k bl : Nat), buildRecord headers tm (row ++ List.replicate k "") bl
        = buildRecord headers tm row bl)
      ∧ (∀ (bl : Nat) (name : String) (j : Nat), row.length ≤ j → j < headers.length →
          normHeader (headers.getD j "") = name →
          (∀ i, i < row.length → normHeader (headers.getD i "") ≠ name) →
          name ≠ "name" →
          dictGetVal (buildRecord headers tm row bl) name = none)
      ∧ (∀ (batchSize k : Nat) (acc : List (List Record) × List Record),
          csvStep batchSize headers tm acc (row ++ List.replicate k "")
            = csvStep batchSize headers tm acc row) := by
  have hcells : ∀ k, buildCells headers tm 0 (row ++ List.replicate k "") []
      = buildCells headers tm 0 row [] := by
    intro k
    rw [buildCells_append, buildCells_replicate]
  have hrec : ∀ (k bl : Nat), buildRecord headers tm (row ++ List.replicate k "") bl
      = buildRecord headers tm row bl := by
    intro k bl
    simp only [buildRecord]
    rw [hcells k]
  refine ⟨hrec, ?_, ?_⟩
  · intro bl name j hj1 hj2 hj3 hdup hne
    have h0 : dictGetVal (buildCells headers tm 0 row []) name = none := by
      rw [dictGetVal_buildCells]
      rw [lastWrite_eq_none headers name row 0 (fun jj hjj => by
        rintro ⟨-, -, hc3, -⟩
        rw [Nat.zero_add] at hc3
        exact hdup jj hjj hc3)]
      rfl
    simp only [buildRecord]
    by_cases hcond : dictGetVal (buildCells headers tm 0 row []) "name" = none
        ∧ (normHeaderKeys headers).contains "name" = false
    · rw [if_pos hcond]
      cases hfind : nameCandidates.find?
          (fun c => pyTruthy ((dictGetVal (buildCells headers tm 0 row []) c).getD .pynone)) with
      | some c =>
        rw [dictGetVal_dictInsert_ne _ _ _ _ (fun hcontra => hne hcontra.symm)]
        exact h0
      | none =>
        rw [dictGetVal_dictInsert_ne _ _ _ _ (fun hcontra => hne hcontra.symm)]
        exact h0
    · rw [if_neg hcond]
      exact h0
  · intro batchSize k acc
    simp only [csvStep]
    rw [hrec k acc.2.length]

/-- C8 witness: with headers `a, b` and the one-cell row `x`, padding with
an empty cell changes nothing and the record lacks the key `b`. -/
theorem c8_short_rows_witness :
    buildRecord ["a", "b"] [] (["x"] ++ List.replicate 1 "") 0 = buildRecord ["a", "b"] [] ["x"] 0
      ∧ dictGetVal (buildRecord ["a", "b"] [] ["x"] 0) "b" = none := by
  have h := c8_short_rows ["a", "b"] [] ["x"] (by decide)
  exact ⟨h.1 1 0,
    h.2.1 0 "b" 1 (by decide) (by decide) (by decide)
      (fun i hi => by
        have h1 : i = 0 := by
          have h2 : i < 1 := by simpa using hi
          omega
        subst h1
        decide) (by decide)⟩

/-- C10 (amended): when several headers normalize to the same column name,
the built record maps that name to the (per-type normalized) value of the
right-most such column whose cell is non-empty; no error is possible, and
the streaming step appends the record to the current batch (or flushes it)
whenever the record carries a key beyond `id`/`name` — the same
meaningless-record skip applied to every row. -/
theorem c10_duplicate_headers_rightmost (headers : List String)
    (tm : List (String × String)) (row : List String) (name : String) (i : Nat)
    (hi : i < headers.length) (hir : i < row.length)
    (hname : normHeader (headers.getD i "") = name)
    (hv : row.getD i "" ≠ "") (hne : name ≠ "")
    (hright : ∀ j, i < j → j < headers.length → j < row.length →
        normHeader (headers.getD j "") = name → row.getD j "" = "") :
    (∀ bl : Nat, dictGetVal (buildRecord headers tm row bl) name
        = some (applyNorm tm name (row.getD i "")))
      ∧ ∀ (batchSize : Nat) (acc : List (List Record) × List Record),
          meaningful (buildRecord headers tm row acc.2.length) = true →
          buildRecord headers tm row acc.2.length ∈ (csvStep batchSize headers tm acc row).2
            ∨ ∃ b ∈ (csvStep batchSize headers tm acc row).1,
                buildRecord headers tm row acc.2.length ∈ b := by
  have hlen_take : (row.take (i + 1)).length = i + 1 := by
    rw [List.length_take, Nat.min_eq_left (by omega)]
  have hlen_take_i : (row.take i).length = i := by
    rw [List.length_take, Nat.min_eq_left (by omega)]
  have hdrop_none : lastWrite headers name (i + 1) (row.drop (i + 1)) = none := by
    apply lastWrite_eq_none
    intro j hj
    rintro ⟨hc1, _, hc3, hc4⟩
    apply hc4
    rw [getD_drop_eq]
    apply hright (i + 1 + j) (by omega) hc1
    · rw [List.length_drop] at hj
      omega
    · exact hc3
  have hlast : lastWrite headers name 0 row = some (row.getD i "") := by
    conv_lhs => rw [← List.take_append_drop (i + 1) row]
    rw [lastWrite_append, hlen_take, Nat.zero_add, hdrop_none]
    rw [take_succ_eq_take_append row i hir, lastWrite_append, hlen_take_i, Nat.zero_add]
    rw [lastWrite_cons]
    rw [show lastWrite headers name (i + 1) [] = none from rfl]
    rw [if_pos ⟨hi, hne, hname, hv⟩]
  have h0 : ∀ r0, r0 = buildCells headers tm 0 row [] →
      dictGetVal r0 name = some (applyNorm tm name (row.getD i "")) := by
    intro r0 hr0
    subst hr0
    rw [dictGetVal_buildCells, hlast]
  constructor
  · intro bl
    simp only [buildRecord]
    by_cases hnn : name = "name"
    · rw [if_neg (by
        rintro ⟨hc, -⟩
        rw [← hnn, h0 _ rfl] at hc
        cases hc)]
      exact h0 _ rfl
    · by_cases hcond : dictGetVal (buildCells headers tm 0 row []) "name" = none
          ∧ (normHeaderKeys headers).contains "name" = false
      · rw [if_pos hcond]
        cases hfind : nameCandidates.find?
            (fun c => pyTruthy ((dictGetVal (buildCells headers tm 0 row []) c).getD .pynone)) with
        | some c =>
          rw [dictGetVal_dictInsert_ne _ _ _ _ (fun hcontra => hnn hcontra.symm)]
          exact h0 _ rfl
        | none =>
          rw [dictGetVal_dictInsert_ne _ _ _ _ (fun hcontra => hnn hcontra.symm)]
          exact h0 _ rfl
      · rw [if_neg hcond]
        exact h0 _ rfl
  · intro batchSize acc hm
    simp only [csvStep]
    rw [if_pos hm]
    by_cases hflush :
        (acc.2 ++ [buildRecord headers tm row acc.2.length]).length ≥ batchSize
    · rw [if_pos hflush]
      right
      exact ⟨acc.2 ++ [buildRecord headers tm row acc.2.length],
        List.mem_append_right _ (List.mem_singleton_self _),
        List.mem_append_right _ (List.mem_singleton_self _)⟩
    · rw [if_neg hflush]
      left
      exact List.mem_append_right _ (List.mem_singleton_self _)

/-- C10 witness: headers `a, A, b` both normalize the first two columns to
`a`; the record keeps the right-most non-empty value `y`, and the row is
batched. -/
theorem c10_duplicate_headers_rightmost_witness :
    dictGetVal (buildRecord ["a", "A", "b"] [] ["x", "y", "z"] 0) "a"
      = some (applyNorm [] "a" ((["x", "y", "z"] : List String).getD 1 "")) :=
  (c10_duplicate_headers_rightmost ["a", "A", "b"] [] ["x", "y", "z"] "a" 1
    (by decide) (by decide) (by decide) (by decide) (by decide)
    (fun j h1 h2 _ h4 => by
      have hj : j = 2 := by
        have hlt : j < 3 := by simpa using h2
        omega
      subst hj
      exact absurd h4 (by decide))).1 0

/-- C10 counterexample: with duplicate headers `id`/`ID` and a fully
non-empty row, the record does map `id` to the right-most value, yet the
row is not imported at all — its record carries nothing beyond `id` and the
synthesized `name`, so the loop skips it and submits no batch, refuting the
claim's "the row is still imported". -/
theorem c10_counterexample_meaningless_row :
    normHeader ((["id", "ID"] : List String).getD 1 "")
        = normHeader ((["id", "ID"] : List String).getD 0 "")
      ∧ (["1", "2"] : List String).getD 1 "" ≠ ""
      ∧ dictGetVal (buildRecord ["id", "ID"] [] ["1", "2"] 0) "id" = some (.str "2")
      ∧ processRows 1000 ["id", "ID"] [] [["1", "2"]] = [] := by
  refine ⟨by decide, by decide, by decide, by decide⟩
